import Mathlib

/-!
Verification development for the observability-assistant chatbot core:
the Korrel8r correlation-query normalizer, the result truncator, the
provider-adapter tool-calling loops (OpenAI, Llama, Anthropic, Google),
the deterministic fallback adapter and the bot factory, embedded from
`src/chatbots/` and `src/mcp_server/chatbots/`.

Python strings are embedded as `String`/`List Char` (Python indexes code
points, as does `List Char`).  Python exceptions are embedded as
`Except String`; a `try/except` block becomes a `match` on the `Except`
value.  External collaborators (the backend SDK call, the tool executor,
the progress callback, `json.loads`) are parameters of the embedded
functions, exactly as wide as the interface the source uses.
Literal braces in string literals are written `\x7b` and `\x7d`.
-/

/-- Python `str.strip` whitespace class (ASCII, which covers all inputs
relevant here): `' '`, `\t`, `\n`, `\r`, `\x0b`, `\x0c`. -/
def pyIsSpace (c : Char) : Bool :=
  c == ' ' || c == '\t' || c == '\n' || c == '\r' || c == '\x0b' || c == '\x0c'

/-- Python `s.strip()`: drop leading and trailing whitespace. -/
def pyStrip (l : List Char) : List Char :=
  ((l.dropWhile pyIsSpace).reverse.dropWhile pyIsSpace).reverse

/-- Python `s.lower()` (ASCII range, which covers the factory's inputs). -/
def pyLower (l : List Char) : List Char :=
  l.map Char.toLower

/-- The character list of a string literal. -/
def chars (s : String) : List Char :=
  s.toList

/-- Python `pat in s` substring test. -/
def containsSub (pat : List Char) : List Char → Bool
  | [] => pat.isEmpty
  | c :: rest => pat.isPrefixOf (c :: rest) || containsSub pat rest

/-- Python `s.replace('\\"', '"')`: left-to-right, non-overlapping
replacement of each backslash-quote pair by a bare quote. -/
def pyReplaceEscQuote : List Char → List Char
  | [] => []
  | '\\' :: '"' :: rest => '"' :: pyReplaceEscQuote rest
  | c :: rest => c :: pyReplaceEscQuote rest

/-- Python `s.split(":", 2)[2]`: the remainder after the second colon
(used by the source only under a guard that guarantees two colons). -/
def splitColon2Tail (l : List Char) : List Char :=
  match l.dropWhile (fun c => c ≠ ':') with
  | [] => []
  | _ :: rest =>
    match rest.dropWhile (fun c => c ≠ ':') with
    | [] => []
    | _ :: rest2 => rest2

/-- Index of the last occurrence of `c`, if any. -/
def lastIdxOf (c : Char) : List Char → Option Nat
  | [] => none
  | x :: rest =>
    match lastIdxOf c rest with
    | some k => some (k + 1)
    | none => if x = c then some 0 else none

/-- `re.search(r"\x7b(.*)\x7d", s)`: the match starts at the first `¶x7b`
that is followed by a `¶x7d` later on the same line (`.` does not match a
newline); `(.*)` is greedy, so the body extends to the last `¶x7d` on that
line.  Returns `(prefix before the brace, group 1, suffix after the
closing brace)`. -/
def findBraceMatch : List Char → Option (List Char × List Char × List Char)
  | [] => none
  | c :: rest =>
    if c = '\x7b' then
      let seg := rest.takeWhile (fun x => x ≠ '\n')
      match lastIdxOf '\x7d' seg with
      | some k => some ([], rest.take k, rest.drop (k + 1))
      | none =>
        match findBraceMatch rest with
        | some (p, i, s) => some (c :: p, i, s)
        | none => none
    else
      match findBraceMatch rest with
      | some (p, i, s) => some (c :: p, i, s)
      | none => none

/-- Regex word character (`\w` over the ASCII inputs at hand). -/
def isWordChar (c : Char) : Bool :=
  c.isAlpha || c.isDigit || c == '_'

/-- Character class `[A-Za-z0-9_\.]` of the selector-key pattern. -/
def isKeyChar (c : Char) : Bool :=
  isWordChar c || c == '.'

/-- `\b` between the previous character (none at the start of the
searched text) and the next one: exactly one side is a word character. -/
def wordBoundary (prev : Option Char) (c : Char) : Bool :=
  (match prev with | none => false | some p => isWordChar p) != isWordChar c

/-- Attempt the tail of the pattern `([A-Za-z0-9_\.]+)\s*=\s*(")` at the
head of `l`: a nonempty greedy key, optional whitespace, `=`, optional
whitespace, a double quote.  The involved character classes are disjoint,
so greedy matching needs no backtracking.  Returns the key and the text
after the quote. -/
def matchKV (l : List Char) : Option (List Char × List Char) :=
  let key := l.takeWhile isKeyChar
  if key = [] then none
  else
    match (l.drop key.length).dropWhile pyIsSpace with
    | [] => none
    | c :: r2 =>
      if c = '=' then
        match r2.dropWhile pyIsSpace with
        | [] => none
        | c2 :: r3 => if c2 = '"' then some (key, r3) else none
      else none

/-- Replacement text for one `key="` match: the repaired key plus the
quote captured as group 2 — `"key":"` in the alert domain (JSON style),
`"key":="` otherwise (selector-operator style). -/
def replKV (alertDomain : Bool) (key : List Char) : List Char :=
  if alertDomain then '"' :: key ++ ['"', ':', '"']
  else '"' :: key ++ ['"', ':', '=', '"']

/-- `re.sub(r"\b([A-Za-z0-9_\.]+)\s*=\s*(\")", repl, inner)`: scan left to
right; at each position with a word boundary try the pattern, replace on
success and resume after the matched quote, otherwise advance one
character.  `prev` is the character before the scan position.  The `fuel`
argument only bounds the recursion (each step consumes at least one
character, so `fuel = l.length` always suffices and the `0` branch is
never taken from `subKV`). -/
def subKVFuel (alertDomain : Bool) : Nat → Option Char → List Char → List Char
  | 0, _, l => l
  | fuel + 1, prev, l =>
    match l with
    | [] => []
    | c :: rest =>
      if wordBoundary prev c then
        match matchKV (c :: rest) with
        | some (key, r) => replKV alertDomain key ++ subKVFuel alertDomain fuel (some '"') r
        | none => c :: subKVFuel alertDomain fuel (some c) rest
      else c :: subKVFuel alertDomain fuel (some c) rest

/-- The `re.sub` scan over a whole text, starting before its first
character. -/
def subKV (alertDomain : Bool) (prev : Option Char) (l : List Char) : List Char :=
  subKVFuel alertDomain l.length prev l

/-- Lines 144–163 of `src/chatbots/base.py`: rewrite `key="` pairs inside
the first (greedy) brace match; if the rewrite changed nothing the string
is returned as it was. -/
def braceRewrite (alertDomain : Bool) (s : List Char) : List Char :=
  match findBraceMatch s with
  | none => s
  | some (pre, inner, suf) =>
    let inner2 := subKV alertDomain none inner
    if inner2 ≠ inner then pre ++ '\x7b' :: (inner2 ++ '\x7d' :: suf) else s

/-- `BaseChatBot._normalize_korrel8r_query` (src/chatbots/base.py lines
120–167) on character lists: strip, unescape `\"`, insert the missing
class for `alert:\x7b`, fix the `k8s:alert:` misclassification, then
rewrite selector keys inside the first brace match.  The function is
total, embedding the enclosing `try/except` that returns the input on
error. -/
def normalizeChars (q : List Char) : List Char :=
  let s0 := pyStrip q
  let s1 := if containsSub ['\\', '"'] s0 then pyReplaceEscQuote s0 else s0
  let s2 := if (chars "alert:\x7b").isPrefixOf s1 then
      chars "alert:alert:\x7b" ++ s1.drop 7
    else s1
  let domain := if s2.contains ':' then s2.takeWhile (fun c => c ≠ ':') else []
  if (chars "k8s:alert:").isPrefixOf (pyLower s2) then
    braceRewrite true (chars "alert:alert:" ++ splitColon2Tail s2)
  else
    braceRewrite (domain = chars "alert") s2

/-- `BaseChatBot._normalize_korrel8r_query` on `String`. -/
def normalize_korrel8r_query (q : String) : String :=
  (normalizeChars q.toList).asString

/-- `BaseChatBot._get_base_prompt`: the shared system prompt with the
namespace scope interpolated.  The page-long instruction prose is
abridged to its opening line plus the scope line; no claim depends on the
prompt text, only on the system message's identity and position in the
transcript. -/
def basePrompt (ns : Option String) : String :=
  "You are an expert Kubernetes and Prometheus observability assistant.\n- Scope: "
    ++ (match ns with | some n => n | none => "Cluster-wide analysis")

/-- `BaseChatBot._create_system_prompt`: base prompt plus the
provider-specific addendum, separated by a blank line when the addendum
is nonempty. -/
def createSystemPrompt (ns : Option String) (addendum : String) : String :=
  if addendum ≠ "" then basePrompt ns ++ "\n\n" ++ addendum else basePrompt ns

/-- `OpenAIChatBot._get_model_specific_instructions` (abridged to its
heading). -/
def gptInstructions : String :=
  "**GPT-SPECIFIC INSTRUCTIONS:**"

/-- `LlamaChatBot._get_model_specific_instructions` (abridged to its
heading). -/
def llamaInstructions : String :=
  "**LLAMA-SPECIFIC INSTRUCTIONS:**"

/-- JSON values, as far as the embedded code inspects them: the adapters
only ever look at whether a value is a (nonempty) string; nested
arrays/objects are opaque to them and are not needed by any claim. -/
inductive JVal where
  | str (s : String)
  | num (n : Int)
  | boolean (b : Bool)
  | null
deriving DecidableEq, Repr

/-- A Python `dict` of tool arguments, in insertion order. -/
abbrev Args := List (String × JVal)

/-- Python `arguments.get(k)`. -/
def argsGet (args : Args) (k : String) : Option JVal :=
  (List.find? (fun p => p.1 = k) args).map (fun p => p.2)

/-- Python `arguments[k] = v`: replace in place if the key exists,
append otherwise. -/
def argsSet (args : Args) (k : String) (v : JVal) : Args :=
  if (List.any args (fun p => p.1 = k)) then
    List.map (fun p => if p.1 = k then (k, v) else p) args
  else args ++ [(k, v)]

/-- `BaseChatBot._route_tool_call_to_mcp`, korrel8r-normalization step:
for the correlation tool, a nonempty string-valued `query` argument is
rewritten through the normalizer when that changes it. -/
def normalizeToolArgs (toolName : String) (args : Args) : Args :=
  if toolName = "korrel8r_get_correlated" then
    match argsGet args "query" with
    | some (JVal.str q) =>
      if q ≠ "" then
        let nq := normalize_korrel8r_query q
        if nq ≠ q then argsSet args "query" (JVal.str nq) else args
      else args
    | _ => args
  else args

/-- `BaseChatBot._route_tool_call_to_mcp`: normalize correlation-query
arguments, call the tool executor, and convert an executor exception into
the string `"Error executing <tool>: <message>"` used as the tool's
result text. -/
def route_tool_call_to_mcp (exec : String → Args → Except String String)
    (toolName : String) (args : Args) : String :=
  match exec toolName (normalizeToolArgs toolName args) with
  | .ok r => r
  | .error e => "Error executing " ++ toolName ++ ": " ++ e

/-- The truncation marker appended by `BaseChatBot._get_tool_result`. -/
def truncationMarker : String :=
  "\n... [Result truncated due to size]"

/-- The truncation step of `BaseChatBot._get_tool_result`: keep the first
`maxLength` characters of an overlong result and append the marker. -/
def truncateResult (maxLength : Nat) (s : String) : String :=
  if s.length > maxLength then (s.toList.take maxLength).asString ++ truncationMarker
  else s

/-- `BaseChatBot._get_tool_result`: route the call and truncate the
result to the bot-specific budget. -/
def get_tool_result (exec : String → Args → Except String String)
    (maxLength : Nat) (toolName : String) (args : Args) : String :=
  truncateResult maxLength (route_tool_call_to_mcp exec toolName args)

/-- One tool call requested by an OpenAI-style backend: provider-assigned
id, tool name, and the raw JSON text of the arguments. -/
structure ToolCall where
  id : String
  name : String
  arguments : String
deriving DecidableEq, Repr

/-- One OpenAI-style chat completion: finish reason, optional assistant
text, and the requested tool calls (empty when absent). -/
structure ChatResponse where
  finishReason : String
  content : Option String
  toolCalls : List ToolCall
deriving DecidableEq, Repr

/-- A transcript entry of the OpenAI-style message list. -/
inductive Msg where
  | system (content : String)
  | user (content : String)
  | assistant (content : Option String) (toolCalls : List ToolCall)
  | tool (toolCallId : String) (content : String)
deriving DecidableEq, Repr

/-- Invoke the optional progress callback (`if progress_callback: ...`);
the callback may raise. -/
def cbRun (cb : Option (String → Except String Unit)) (s : String) :
    Except String Unit :=
  match cb with
  | some f => f s
  | none => .ok ()

/-- The per-tool-call body of the OpenAI/Llama tool turn: parse the raw
argument text with `json.loads` (abstracted as `parse`; a parse failure
yields the empty dict), report progress, execute with truncation, and
build the `role:"tool"` message carrying the originating call's id. -/
def toolTurnMsgs (cb : Option (String → Except String Unit))
    (exec : String → Args → Except String String)
    (parse : String → Option Args) (maxLength : Nat) :
    List ToolCall → Except String (List Msg)
  | [] => .ok []
  | tc :: rest => do
    let args := (parse tc.arguments).getD []
    cbRun cb ("🔧 Using tool: " ++ tc.name)
    let r := get_tool_result exec maxLength tc.name args
    let restMsgs ← toolTurnMsgs cb exec parse maxLength rest
    .ok (Msg.tool tc.id r :: restMsgs)

/-- The OpenAI/Llama history limit: `if len(messages) > 10: messages =
[messages[0]] + messages[-8:]`. -/
def trimOpenAI (msgs : List Msg) : List Msg :=
  if msgs.length > 10 then msgs.take 1 ++ msgs.drop (msgs.length - 8) else msgs

/-- The iteration-exhaustion message shared by all adapters. -/
def incompleteMsg : String :=
  "Analysis incomplete. Please try a more specific question."

/-- Strip a wrapping pair of markdown code fences from the final OpenAI
response (src/chatbots/openai_bot.py lines 195–201). -/
def stripFences (s : String) : String :=
  if (chars "```").isPrefixOf s.toList ∧ (chars "```").isSuffixOf s.toList then
    let lines := s.splitOn "\n"
    let lines := match lines with
      | l0 :: rest => if (chars "```").isPrefixOf l0.toList then rest else lines
      | [] => lines
    let lines := match lines.getLast? with
      | some ll => if (pyStrip ll.toList).asString = "```" then lines.dropLast else lines
      | none => lines
    (pyStrip (String.intercalate "\n" lines).toList).asString
  else s

/-- The iterative tool-calling loop of `OpenAIChatBot.chat`
(src/chatbots/openai_bot.py lines 110–208).  `fuel` is the number of
iterations left (`max_iterations - iteration`); `iter` is the Python
`iteration` counter, returned with the result so termination claims can
speak about the number of iterations used.  The backend (the SDK call),
the progress callback and the tool executor may raise; those exceptions
propagate to `openai_chat`'s top-level handler. -/
def openaiLoop (backend : List Msg → Except String ChatResponse)
    (cb : Option (String → Except String Unit))
    (exec : String → Args → Except String String)
    (parse : String → Option Args) :
    Nat → Nat → List Msg → Except String (String × Nat)
  | 0, iter, _ => .ok (incompleteMsg, iter)
  | fuel + 1, iter, msgs => do
    let iter := iter + 1
    cbRun cb ("🤖 Thinking... (iteration " ++ toString iter ++ ")")
    let resp ← backend msgs
    let msgs := msgs ++ [Msg.assistant resp.content resp.toolCalls]
    if resp.finishReason = "tool_calls" ∧ resp.toolCalls ≠ [] then do
      let results ← toolTurnMsgs cb exec parse 10000 resp.toolCalls
      openaiLoop backend cb exec parse fuel iter (trimOpenAI (msgs ++ results))
    else
      .ok (stripFences (resp.content.getD ""), iter)

/-- `OpenAIChatBot.chat`: SDK/key guards, then the loop inside
`try/except`; every exception becomes the communication-error string.
The result type is `Except` to express that `chat` *could* raise — the
claim that it never does is a theorem, not a typing assumption. -/
def openai_chat (sdkInstalled : Bool) (apiKey : Option String) (modelName : String)
    (listToolsR : Except String Unit)
    (backend : List Msg → Except String ChatResponse)
    (cb : Option (String → Except String Unit))
    (exec : String → Args → Except String String)
    (parse : String → Option Args)
    (userQuestion : String) (ns : Option String) : Except String String :=
  if !sdkInstalled then
    .ok "Error: OpenAI SDK not installed. Please install it with: pip install openai"
  else if apiKey = none then
    .ok ("API key required for OpenAI model " ++ modelName ++ ". Please provide an API key.")
  else
    let body : Except String String := do
      listToolsR
      let r ← openaiLoop backend cb exec parse 30 0
        [Msg.system (createSystemPrompt ns gptInstructions), Msg.user userQuestion]
      .ok r.1
    match body with
    | .ok s => .ok s
    | .error e => .ok ("Error during OpenAI tool calling: " ++ toString e)

/-- The iterative tool-calling loop of `LlamaChatBot.chat`
(src/chatbots/llama_bot.py lines 146–234): identical to the OpenAI loop
except for the 8000-character truncation budget and the final response
being returned without fence stripping. -/
def llamaLoop (backend : List Msg → Except String ChatResponse)
    (cb : Option (String → Except String Unit))
    (exec : String → Args → Except String String)
    (parse : String → Option Args) :
    Nat → Nat → List Msg → Except String (String × Nat)
  | 0, iter, _ => .ok (incompleteMsg, iter)
  | fuel + 1, iter, msgs => do
    let iter := iter + 1
    cbRun cb ("🤖 Thinking... (iteration " ++ toString iter ++ ")")
    let resp ← backend msgs
    let msgs := msgs ++ [Msg.assistant resp.content resp.toolCalls]
    if resp.finishReason = "tool_calls" ∧ resp.toolCalls ≠ [] then do
      let results ← toolTurnMsgs cb exec parse 8000 resp.toolCalls
      llamaLoop backend cb exec parse fuel iter (trimOpenAI (msgs ++ results))
    else
      .ok (resp.content.getD "", iter)

/-- `LlamaChatBot.chat`: SDK guard (local models need no API key), then
the loop inside `try/except`. -/
def llama_chat (sdkInstalled : Bool)
    (backend : List Msg → Except String ChatResponse)
    (cb : Option (String → Except String Unit))
    (exec : String → Args → Except String String)
    (parse : String → Option Args)
    (userQuestion : String) (ns : Option String) : Except String String :=
  if !sdkInstalled then
    .ok "Error: OpenAI SDK not installed. Please install it with: pip install openai"
  else
    let body : Except String String := do
      let r ← llamaLoop backend cb exec parse 30 0
        [Msg.system (createSystemPrompt ns llamaInstructions), Msg.user userQuestion]
      .ok r.1
    match body with
    | .ok s => .ok s
    | .error e => .ok ("Error during LlamaStack tool calling: " ++ toString e)

/-- One content block of an Anthropic message: plain text or a tool-use
request whose `input` arrives already parsed. -/
inductive ABlock where
  | text (s : String)
  | toolUse (id : String) (name : String) (input : Args)
deriving DecidableEq, Repr

/-- One Anthropic completion: stop reason plus content blocks. -/
structure AResponse where
  stopReason : String
  content : List ABlock
deriving DecidableEq, Repr

/-- A transcript entry of the Anthropic message list.  Note there is no
system entry: `AnthropicChatBot.chat` passes the system prompt as the
separate `system=` parameter and the transcript starts at the user
question. -/
inductive AMsg where
  | userText (s : String)
  | assistant (content : List ABlock)
  | userToolResults (results : List (String × String))
deriving DecidableEq, Repr

/-- The per-turn tool execution of `AnthropicChatBot.chat` (lines
107–125): run every `tool_use` block in order, building the
`tool_result` blocks `(tool_use_id, content)`. -/
def anthropicToolResults (cb : Option (String → Except String Unit))
    (exec : String → Args → Except String String) :
    List ABlock → Except String (List (String × String))
  | [] => .ok []
  | ABlock.text _ :: rest => anthropicToolResults cb exec rest
  | ABlock.toolUse id name input :: rest => do
    cbRun cb ("🔧 Using tool: " ++ name)
    let r := get_tool_result exec 15000 name input
    let restResults ← anthropicToolResults cb exec rest
    .ok ((id, r) :: restResults)

/-- The Anthropic history limit: `if len(messages) > 8: messages =
messages[-8:]` — unlike the OpenAI variant it does not re-prepend entry
0. -/
def trimAnthropic (msgs : List AMsg) : List AMsg :=
  if msgs.length > 8 then msgs.drop (msgs.length - 8) else msgs

/-- Concatenation of the `text` blocks of the final Anthropic response. -/
def concatABlocks (blocks : List ABlock) : String :=
  blocks.foldl (fun acc b => match b with | ABlock.text s => acc ++ s | _ => acc) ""

/-- The iterative tool-calling loop of `AnthropicChatBot.chat`
(src/mcp_server/chatbots/anthropic_bot.py lines 81–152). -/
def anthropicLoop (backend : List AMsg → Except String AResponse)
    (cb : Option (String → Except String Unit))
    (exec : String → Args → Except String String) :
    Nat → Nat → List AMsg → Except String (String × Nat)
  | 0, iter, _ => .ok (incompleteMsg, iter)
  | fuel + 1, iter, msgs => do
    let iter := iter + 1
    cbRun cb ("🤖 Thinking... (iteration " ++ toString iter ++ ")")
    let resp ← backend msgs
    let msgs := msgs ++ [AMsg.assistant resp.content]
    if resp.stopReason = "tool_use" then do
      let results ← anthropicToolResults cb exec resp.content
      anthropicLoop backend cb exec fuel iter
        (trimAnthropic (msgs ++ [AMsg.userToolResults results]))
    else
      .ok (concatABlocks resp.content, iter)

/-- `AnthropicChatBot.chat`: SDK/key guards, then the loop inside
`try/except`; the transcript is seeded with the user question only. -/
def anthropic_chat (sdkInstalled : Bool) (apiKey : Option String) (modelName : String)
    (backend : List AMsg → Except String AResponse)
    (cb : Option (String → Except String Unit))
    (exec : String → Args → Except String String)
    (userQuestion : String) : Except String String :=
  if !sdkInstalled then
    .ok "Error: Anthropic SDK not installed. Please install it with: pip install anthropic"
  else if apiKey = none then
    .ok ("API key required for Anthropic model " ++ modelName ++ ". Please provide an API key.")
  else
    let body : Except String String := do
      let r ← anthropicLoop backend cb exec 30 0 [AMsg.userText userQuestion]
      .ok r.1
    match body with
    | .ok s => .ok s
    | .error e => .ok ("Error during Anthropic tool calling: " ++ toString e)

/-- One part of a Gemini candidate's content: text or a function call
(whose proto args are converted to plain data before execution, embedded
here as already-plain `Args`). -/
inductive GPart where
  | text (s : String)
  | functionCall (name : String) (args : Args)
deriving DecidableEq, Repr

/-- One Gemini response candidate. -/
structure GCandidate where
  parts : List GPart
deriving DecidableEq, Repr

/-- A Gemini response: its candidate list.  (The source's separate
`content`-attribute presence check cannot be distinguished from an empty
parts list in this data model; both claims using the Google adapter are
indifferent to it.) -/
structure GResponse where
  candidates : List GCandidate
deriving DecidableEq, Repr

/-- Whether a part carries a function call (`hasattr(part, 'function_call')
and part.function_call`). -/
def isFunctionCall : GPart → Bool
  | GPart.functionCall _ _ => true
  | _ => false

/-- Build the `FunctionResponse` parts `(name, tool result)` for one
Gemini turn (src/mcp_server/chatbots/google_bot.py lines 250–274). -/
def googleFuncResponses (cb : Option (String → Except String Unit))
    (exec : String → Args → Except String String) :
    List GPart → Except String (List (String × String))
  | [] => .ok []
  | GPart.text _ :: rest => googleFuncResponses cb exec rest
  | GPart.functionCall name args :: rest => do
    cbRun cb ("🔧 Using tool: " ++ name)
    let r := get_tool_result exec 10000 name args
    let restResults ← googleFuncResponses cb exec rest
    .ok ((name, r) :: restResults)

/-- Concatenation of the nonempty `text` parts of a final Gemini
response. -/
def concatGParts (parts : List GPart) : String :=
  parts.foldl (fun acc p => match p with | GPart.text s => acc ++ s | _ => acc) ""

/-- The iterative tool-calling loop of `GoogleChatBot.chat`
(src/mcp_server/chatbots/google_bot.py lines 198–297).  The chat-session
backend is a function of the iteration number (the SDK object holds the
session state); iteration 1 sends the user question, later iterations
send the accumulated function responses `frs`.  The `send_message` call
sits in its own inner `try` whose failure returns the communication-error
string rather than raising. -/
def googleLoop (backend : Nat → Except String GResponse)
    (cb : Option (String → Except String Unit))
    (exec : String → Args → Except String String) :
    Nat → Nat → List (String × String) → Except String (String × Nat)
  | 0, iter, _ => .ok (incompleteMsg, iter)
  | fuel + 1, iter, frs => do
    let iter := iter + 1
    cbRun cb ("🤖 Thinking... (iteration " ++ toString iter ++ ")")
    if iter = 1 ∨ frs ≠ [] then
      match backend iter with
      | .error e => .ok ("Error communicating with Gemini: " ++ toString e, iter)
      | .ok resp =>
        match resp.candidates with
        | [] => .ok ("Error: No response candidates from Google Gemini", iter)
        | cand :: _ =>
          if cand.parts = [] then
            .ok ("Error: No response parts from Google Gemini. The model may have been blocked or returned an empty response.", iter)
          else if cand.parts.any isFunctionCall then do
            let frs2 ← googleFuncResponses cb exec cand.parts
            googleLoop backend cb exec fuel iter frs2
          else
            let finalResponse := concatGParts cand.parts
            if finalResponse = "" then
              .ok ("Error: Model completed but returned no text response", iter)
            else
              .ok (finalResponse, iter)
    else
      -- `break` with no function responses to send: falls through to the
      -- max-iterations return.
      .ok (incompleteMsg, iter)

/-- `GoogleChatBot.chat`: SDK/key guards, then the loop (with its reduced
cap of 10 iterations) inside `try/except`. -/
def google_chat (configured : Bool) (apiKey : Option String) (modelName : String)
    (backend : Nat → Except String GResponse)
    (cb : Option (String → Except String Unit))
    (exec : String → Args → Except String String)
    (userQuestion : String) : Except String String :=
  if !configured then
    .ok "Error: Google Generative AI SDK not installed. Please install it with: pip install google-generativeai"
  else if apiKey = none then
    .ok ("API key required for Google model " ++ modelName ++ ". Please provide an API key.")
  else
    let body : Except String String := do
      let r ← googleLoop backend cb exec 10 0 []
      .ok r.1
    match body with
    | .ok s => .ok s
    | .error e => .ok ("Error during Google Gemini tool calling: " ++ toString e)

/-- Leftmost match attempt of the pattern
`"value"\s*:\s*\[\s*[\d.]+\s*,\s*"([\d.]+)"` at the head of `l`,
returning group 1.  All adjacent character classes are disjoint, so
greedy matching needs no backtracking. -/
def matchValueRe (l : List Char) : Option (List Char) :=
  if (chars "\"value\"").isPrefixOf l then
    match (l.drop 7).dropWhile pyIsSpace with
    | ':' :: r1 =>
      match r1.dropWhile pyIsSpace with
      | '[' :: r2 =>
        let r3 := r2.dropWhile pyIsSpace
        let num1 := r3.takeWhile (fun c => c.isDigit || c == '.')
        if num1 = [] then none
        else
          match (r3.drop num1.length).dropWhile pyIsSpace with
          | ',' :: r4 =>
            match r4.dropWhile pyIsSpace with
            | '"' :: r5 =>
              let num2 := r5.takeWhile (fun c => c.isDigit || c == '.')
              if num2 = [] then none
              else
                match r5.drop num2.length with
                | '"' :: _ => some num2
                | _ => none
            | _ => none
          | _ => none
      | _ => none
    | _ => none
  else none

/-- `re.search` for the `"value": [ts, "<number>"]` pattern: leftmost
match. -/
def searchValueRe : List Char → Option (List Char)
  | [] => none
  | c :: rest =>
    match matchValueRe (c :: rest) with
    | some m => some m
    | none => searchValueRe rest

/-- `re.search(r"(\d+\.\d+)", s)`: leftmost digit-dot-digit number. -/
def searchDecimalRe : List Char → Option (List Char)
  | [] => none
  | c :: rest =>
    if c.isDigit then
      let d1 := (c :: rest).takeWhile Char.isDigit
      match (c :: rest).drop d1.length with
      | '.' :: r2 =>
        let d2 := r2.takeWhile Char.isDigit
        if d2 = [] then searchDecimalRe rest else some (d1 ++ '.' :: d2)
      | _ => searchDecimalRe rest
    else searchDecimalRe rest

/-- Numeric value of a digit string. -/
def digitsToNat (l : List Char) : Nat :=
  l.foldl (fun a c => a * 10 + (c.toNat - 48)) 0

/-- Python `float()` applied to a string matching `[0-9.]+`: accepted iff
it has at most one dot and at least one digit.  Values are exact
rationals; the claims' threshold comparisons are far from any
float-rounding boundary. -/
def pyFloatDigits (l : List Char) : Option ℚ :=
  if l.count '.' ≤ 1 ∧ l.any Char.isDigit then
    let ip := l.takeWhile Char.isDigit
    let fp := match l.drop ip.length with
      | '.' :: r => r
      | _ => []
    some ((digitsToNat ip : ℚ) + (digitsToNat fp : ℚ) / (10 : ℚ) ^ fp.length)
  else none

/-- `DeterministicChatBot._extract_numeric_value` (lines 223–249): try
the JSON pathway (`json.loads` plus the `results[0].value[1]` shape,
abstracted as `jsonValue` since it is stdlib parsing), then the
`"value": [...]` regex — whose `float()` may raise on a group like
`1..2`, uncaught here — then the plain decimal regex. -/
def extract_numeric_value (jsonValue : String → Option ℚ)
    (resultText : String) : Except String (Option ℚ) :=
  match jsonValue resultText with
  | some v => .ok (some v)
  | none =>
    match searchValueRe resultText.toList with
    | some num =>
      match pyFloatDigits num with
      | some v => .ok (some v)
      | none => .error ("could not convert string to float: " ++ num.asString)
    | none => .ok ((searchDecimalRe resultText.toList).bind pyFloatDigits)

/-- The CPU tier selection of `_format_cpu_response` (lines 122–137):
usage level and recommendation from `cpu_percent = cpu_value * 100`. -/
def cpu_usage_tier (cpuValue : ℚ) : String × String :=
  let cpuPercent := cpuValue * 100
  if cpuPercent < 20 then
    ("low", "The cluster has plenty of available computational resources.")
  else if cpuPercent < 60 then
    ("moderate", "CPU utilization is within normal operating range.")
  else if cpuPercent < 80 then
    ("high", "Consider monitoring for potential performance impacts.")
  else
    ("very high", "CPU resources are heavily utilized. Consider scaling or optimization.")

/-- The memory tier selection of `_format_memory_response` (lines
178–191): usage level and recommendation from the value in GiB. -/
def memory_usage_tier (memoryGb : ℚ) : String × String :=
  if memoryGb < 100 then
    ("low", "Memory usage is minimal, plenty of capacity available.")
  else if memoryGb < 500 then
    ("moderate", "Memory usage is within normal operating range.")
  else if memoryGb < 1000 then
    ("high", "Memory usage is elevated. Monitor for potential issues.")
  else
    ("very high", "Substantial memory consumption. Review container memory requests and limits.")

/-- Python `f"{v:.<prec>f}"` for the nonnegative rationals produced here
(rounding of the scaled value to the nearest integer; the claims' values
are exactly representable, away from any rounding tie). -/
def qFormat (prec : Nat) (v : ℚ) : String :=
  let scaled : ℤ := ⌊v * (10 : ℚ) ^ prec + 1 / 2⌋
  let base : ℤ := (10 : ℤ) ^ prec
  let fpStr := toString (scaled % base).toNat
  toString (scaled / base) ++ "." ++
    (List.replicate (prec - fpStr.length) '0').asString ++ fpStr

/-- Python `s[:500]`. -/
def take500 (s : String) : String :=
  (s.toList.take 500).asString

/-- `DeterministicChatBot._format_cpu_response` (lines 113–167). -/
def format_cpu_response (jsonValue : String → Option ℚ)
    (queryUsed resultText : String) : String :=
  match extract_numeric_value jsonValue resultText with
  | .error e =>
    "Error formatting CPU metrics: " ++ e ++ "\n\nRaw result: " ++ take500 resultText
  | .ok (some v) =>
    let cpuPercent := v * 100
    let t := cpu_usage_tier v
    "🖥️ CPU Usage Overview\n\nCurrent CPU Utilization: " ++ qFormat 2 cpuPercent
      ++ "%\n\n📊 Detailed Breakdown:\n- The cluster is currently using approximately "
      ++ qFormat 2 cpuPercent
      ++ "% of its total CPU capacity\n- This indicates a " ++ t.1
      ++ " level of CPU utilization\n- The metric represents the ratio of CPU cores being used across the entire cluster\n\nPromQL Used: `"
      ++ queryUsed ++ "`\n\nOperational Insights:\n- " ++ t.2
      ++ "\n- This measurement reflects cluster-wide container CPU usage"
  | .ok none =>
    "🖥️ CPU Usage Analysis\n\nI retrieved the CPU metrics but had trouble parsing the exact value.\n\nPromQL Used: `"
      ++ queryUsed ++ "`\n\nRaw result: " ++ take500 resultText
      ++ "\n\nPlease check the Prometheus query directly for detailed values."

/-- `DeterministicChatBot._format_memory_response` (lines 169–221). -/
def format_memory_response (jsonValue : String → Option ℚ)
    (queryUsed resultText : String) : String :=
  match extract_numeric_value jsonValue resultText with
  | .error e =>
    "Error formatting memory metrics: " ++ e ++ "\n\nRaw result: " ++ take500 resultText
  | .ok (some v) =>
    let t := memory_usage_tier v
    "🧠 Memory Usage Analysis\n\nTotal Memory Used: " ++ qFormat 1 v
      ++ " GB\n\n📊 Detailed Breakdown:\n- Cluster containers are using approximately "
      ++ qFormat 1 v
      ++ " GB of memory\n- This indicates a " ++ t.1
      ++ " level of memory utilization\n- The metric represents total container memory usage across the cluster\n\nPromQL Used: `"
      ++ queryUsed ++ "`\n\nOperational Insights:\n- " ++ t.2
      ++ "\n- This measurement reflects cluster-wide container memory consumption"
  | .ok none =>
    "🧠 Memory Usage Analysis\n\nI retrieved the memory metrics but had trouble parsing the exact value.\n\nPromQL Used: `"
      ++ queryUsed ++ "`\n\nRaw result: " ++ take500 resultText
      ++ "\n\nPlease check the Prometheus query directly for detailed values."

/-- `DeterministicChatBot._format_deterministic_response` (lines
105–111). -/
def format_deterministic_response (jsonValue : String → Option ℚ)
    (queryType queryUsed resultText : String) : String :=
  if queryType = "cpu" then format_cpu_response jsonValue queryUsed resultText
  else if queryType = "memory" then format_memory_response jsonValue queryUsed resultText
  else "Unable to format response for this query type."

/-- The canned memory query of the deterministic bot. -/
def memoryQuery : String :=
  "sum(container_memory_usage_bytes\x7b\x7d) / 1024 / 1024 / 1024"

/-- The canned CPU query of the deterministic bot. -/
def cpuQuery : String :=
  "cluster:container_cpu_usage:ratio"

/-- The static guidance returned for questions matching no keyword. -/
def generalGuidance (userQuestion : String) : String :=
  "I understand you're asking about: \"" ++ userQuestion
    ++ "\"\n\nTo provide accurate metrics and insights, please ask about specific aspects like:\n- CPU usage or utilization\n- Memory usage\n- Pod counts or status\n- Network metrics\n- Storage metrics\n\nI'll query the Prometheus metrics and provide detailed analysis."

/-- Memory keyword test of `DeterministicChatBot.chat` (checked first so
that \"usage\" does not route memory questions to the CPU branch). -/
def hasMemKeyword (ql : List Char) : Bool :=
  containsSub (chars "memory") ql || containsSub (chars "mem") ql
    || containsSub (chars "ram") ql

/-- CPU keyword test of `DeterministicChatBot.chat`. -/
def hasCpuKeyword (ql : List Char) : Bool :=
  containsSub (chars "cpu") ql || containsSub (chars "usage") ql
    || containsSub (chars "utilization") ql

/-- Lines 96–103 of `DeterministicChatBot.chat`: once a tool result is
collected, emit the formatter progress message (outside any `try`) and
render the response. -/
def detFormatStage (jsonValue : String → Option ℚ)
    (cb : Option (String → Except String Unit))
    (queryType queryUsed resultText : String) : Except String String :=
  match cbRun cb "✨ Formatting response..." with
  | .error e => .error e
  | .ok _ => .ok (format_deterministic_response jsonValue queryType queryUsed resultText)

/-- `DeterministicChatBot.chat` (lines 33–103).  The two callback
invocations at lines 35–36 and 98–99 are outside every `try` block, so a
raising callback propagates (`.error`); the callbacks inside the
memory/CPU branches are inside a `try` whose handler returns an
`Error analyzing ...` string.  Tool-executor failures never raise: they
are already converted to result text by `_route_tool_call_to_mcp`. -/
def deterministic_chat (jsonValue : String → Option ℚ)
    (cb : Option (String → Except String Unit))
    (exec : String → Args → Except String String)
    (userQuestion : String) : Except String String :=
  match cbRun cb "🔍 Analyzing your question..." with
  | .error e => .error e
  | .ok _ =>
    let ql := pyLower userQuestion.toList
    if hasMemKeyword ql then
      match cbRun cb "📊 Querying memory metrics..." with
      | .error e => .ok ("Error analyzing memory metrics: " ++ toString e)
      | .ok _ =>
        let r := route_tool_call_to_mcp exec "execute_promql" [("query", JVal.str memoryQuery)]
        detFormatStage jsonValue cb "memory" memoryQuery r
    else if hasCpuKeyword ql then
      match cbRun cb "📊 Querying CPU metrics..." with
      | .error e => .ok ("Error analyzing CPU metrics: " ++ toString e)
      | .ok _ =>
        let r := route_tool_call_to_mcp exec "execute_promql" [("query", JVal.str cpuQuery)]
        detFormatStage jsonValue cb "cpu" cpuQuery r
    else
      .ok (generalGuidance userQuestion)

/-- The concrete adapter classes the factory can instantiate. -/
inductive BotKind where
  | anthropicBot
  | openaiBot
  | googleBot
  | llamaBot
  | deterministicBot
deriving DecidableEq, Repr

/-- Provider detection of `create_chatbot` (src/chatbots/factory.py lines
107–125): the `PROVIDER_PATTERNS` dict in insertion order, each pattern a
substring or prefix test on the lowercased model name. -/
def detectProvider (modelName : String) : Option String :=
  let ml := pyLower modelName.toList
  if containsSub (chars "anthropic/") ml || containsSub (chars "claude") ml then
    some "anthropic"
  else if containsSub (chars "openai/") ml || (chars "gpt-").isPrefixOf ml
      || (chars "o1-").isPrefixOf ml then
    some "openai"
  else if containsSub (chars "google/") ml || containsSub (chars "gemini") ml then
    some "google"
  else none

/-- Local-model routing of `create_chatbot` (lines 142–160) matches the
`LLAMA_MODEL_PATTERNS` dict in insertion order over this key: the
lowercased model name with `-` replaced by `.`; a family match without a
size match falls through to the next pattern, and anything unmatched
gets the deterministic bot. -/
def localModelKey (modelName : String) : List Char :=
  (pyLower modelName.toList).map (fun c => if c = '-' then '.' else c)

/-- Local-model dispatch over `localModelKey` (the lowercased name with
`-` replaced by `.`), mirroring the pattern loop described above. -/
def routeLocalModel (modelName : String) : BotKind :=
  let ml := localModelKey modelName
  if containsSub (chars "llama.3.1") ml
      ∧ (containsSub (chars "8b") ml ∨ containsSub (chars "70b") ml) then
    BotKind.llamaBot
  else if containsSub (chars "llama.3.3") ml ∧ containsSub (chars "70b") ml then
    BotKind.llamaBot
  else if containsSub (chars "llama.3.2") ml then
    BotKind.deterministicBot
  else
    BotKind.deterministicBot

/-- `create_chatbot` (src/chatbots/factory.py lines 101–160):
`ValueError` when no tool executor is supplied, otherwise the class
selected by provider detection and local-model routing.  The unknown
external provider fallback to the OpenAI bot is unreachable (`provider`
only takes values from the pattern table), matching the source's shape. -/
def create_chatbot (hasToolExecutor : Bool) (modelName : String) :
    Except String BotKind :=
  if !hasToolExecutor then
    .error "tool_executor is required. Pass a ToolExecutor implementation (MCPServerAdapter from MCP server or MCPClientAdapter from UI)"
  else
    match detectProvider modelName with
    | some p =>
      if p = "anthropic" then .ok BotKind.anthropicBot
      else if p = "openai" then .ok BotKind.openaiBot
      else if p = "google" then .ok BotKind.googleBot
      else .ok BotKind.openaiBot
    | none => .ok (routeLocalModel modelName)

/-- Index of the first occurrence of `c`, if any. -/
def firstIdxOf (c : Char) : List Char → Option Nat
  | [] => none
  | x :: rest =>
    if x = c then some 0
    else
      match firstIdxOf c rest with
      | some k => some (k + 1)
      | none => none

/-- The selector-body search as the spec words it: first brace, body up
to the *first* closing brace (non-greedy).  This follows the spec's
words, not the source (whose `(.*)`is greedy), and exists only to be
compared with `findBraceMatch`. -/
def findBraceMatchNonGreedy : List Char → Option (List Char × List Char × List Char)
  | [] => none
  | c :: rest =>
    if c = '\x7b' then
      let seg := rest.takeWhile (fun x => x ≠ '\n')
      match firstIdxOf '\x7d' seg with
      | some k => some ([], rest.take k, rest.drop (k + 1))
      | none =>
        match findBraceMatchNonGreedy rest with
        | some (p, i, s) => some (c :: p, i, s)
        | none => none
    else
      match findBraceMatchNonGreedy rest with
      | some (p, i, s) => some (c :: p, i, s)
      | none => none

/-- The rewrite stage as the spec words it (non-greedy first selector
body); spec-side definition for comparison only. -/
def braceRewriteNonGreedy (alertDomain : Bool) (s : List Char) : List Char :=
  match findBraceMatchNonGreedy s with
  | none => s
  | some (pre, inner, suf) =>
    let inner2 := subKV alertDomain none inner
    if inner2 ≠ inner then pre ++ '\x7b' :: (inner2 ++ '\x7d' :: suf) else s

/-- The whole normalizer as the spec words it (identical to
`normalizeChars` except for the non-greedy selector-body match);
spec-side definition for comparison only. -/
def normalizeSpecNonGreedy (q : String) : String :=
  (let s0 := pyStrip q.toList
   let s1 := if containsSub ['\\', '"'] s0 then pyReplaceEscQuote s0 else s0
   let s2 := if (chars "alert:\x7b").isPrefixOf s1 then
       chars "alert:alert:\x7b" ++ s1.drop 7
     else s1
   let domain := if s2.contains ':' then s2.takeWhile (fun c => c ≠ ':') else []
   if (chars "k8s:alert:").isPrefixOf (pyLower s2) then
     braceRewriteNonGreedy true (chars "alert:alert:" ++ splitColon2Tail s2)
   else
     braceRewriteNonGreedy (domain = chars "alert") s2).asString

/-- Callback oracle that never raises (or was not supplied). -/
abbrev cbOk (cb : Option (String → Except String Unit)) : Prop :=
  ∀ s, cbRun cb s = .ok ()

/-- The transcript messages one OpenAI/Llama tool turn appends for its
tool calls (the pure content of `toolTurnMsgs`, independent of the
progress callback). -/
def toolMsgsPure (exec : String → Args → Except String String)
    (parse : String → Option Args) (maxLength : Nat) (tcs : List ToolCall) :
    List Msg :=
  tcs.map fun tc =>
    Msg.tool tc.id (get_tool_result exec maxLength tc.name ((parse tc.arguments).getD []))

/-- The pre-trim transcript after one completed OpenAI/Llama tool turn:
the assistant message carrying the tool calls, then their results. -/
def openaiToolTurnRaw (exec : String → Args → Except String String)
    (parse : String → Option Args) (maxLength : Nat)
    (resp : ChatResponse) (msgs : List Msg) : List Msg :=
  msgs ++ [Msg.assistant resp.content resp.toolCalls]
    ++ toolMsgsPure exec parse maxLength resp.toolCalls

/-- The transcript after one completed OpenAI/Llama tool turn, trimming
included — exactly the `messages` value the loop passes to its next
iteration. -/
def openaiToolTurn (exec : String → Args → Except String String)
    (parse : String → Option Args) (maxLength : Nat)
    (resp : ChatResponse) (msgs : List Msg) : List Msg :=
  trimOpenAI (openaiToolTurnRaw exec parse maxLength resp msgs)

/-- The OpenAI/Llama transcript after `n` completed tool turns, the
backend's per-turn responses given by `resps`. -/
def openaiTranscript (exec : String → Args → Except String String)
    (parse : String → Option Args) (maxLength : Nat)
    (resps : Nat → ChatResponse) (sysPrompt userQuestion : String) :
    Nat → List Msg
  | 0 => [Msg.system sysPrompt, Msg.user userQuestion]
  | n + 1 =>
    openaiToolTurn exec parse maxLength (resps n)
      (openaiTranscript exec parse maxLength resps sysPrompt userQuestion n)

/-- The tool-result blocks one Anthropic tool turn produces (the pure
content of `anthropicToolResults`). -/
def anthropicToolResultsPure (exec : String → Args → Except String String)
    (blocks : List ABlock) : List (String × String) :=
  blocks.filterMap fun b =>
    match b with
    | ABlock.toolUse id name input => some (id, get_tool_result exec 15000 name input)
    | _ => none

/-- The Anthropic transcript after one completed tool turn, trimming
included. -/
def anthropicToolTurn (exec : String → Args → Except String String)
    (resp : AResponse) (msgs : List AMsg) : List AMsg :=
  trimAnthropic (msgs ++ [AMsg.assistant resp.content]
    ++ [AMsg.userToolResults (anthropicToolResultsPure exec resp.content)])

/-- The Anthropic transcript after `n` completed tool turns.  Entry 0 of
the initial transcript is the *user question*: the system prompt is
passed out of band and never enters the Anthropic message list. -/
def anthropicTranscript (exec : String → Args → Except String String)
    (resps : Nat → AResponse) (userQuestion : String) : Nat → List AMsg
  | 0 => [AMsg.userText userQuestion]
  | n + 1 => anthropicToolTurn exec (resps n) (anthropicTranscript exec resps userQuestion n)

/-- The function-response parts one Gemini tool turn produces (the pure
content of `googleFuncResponses`). -/
def googleFuncResponsesPure (exec : String → Args → Except String String)
    (parts : List GPart) : List (String × String) :=
  parts.filterMap fun p =>
    match p with
    | GPart.functionCall name args => some (name, get_tool_result exec 10000 name args)
    | _ => none

/-- The tool-call ids declared by the assistant messages of a
transcript, in order. -/
def declaredIds : List Msg → List String
  | [] => []
  | Msg.assistant _ tcs :: rest => tcs.map ToolCall.id ++ declaredIds rest
  | _ :: rest => declaredIds rest

/-- Auxiliary scan for `danglingFree`: `acc` holds the tool-call ids
declared so far. -/
def danglingFreeAux (acc : List String) : List Msg → Bool
  | [] => true
  | Msg.tool id _ :: rest => acc.contains id && danglingFreeAux acc rest
  | Msg.assistant _ tcs :: rest => danglingFreeAux (acc ++ tcs.map ToolCall.id) rest
  | _ :: rest => danglingFreeAux acc rest

/-- The transcript invariant of the spec: every `tool_result` message
references a tool call declared by an *earlier* assistant message of the
same transcript. -/
def danglingFree (msgs : List Msg) : Bool :=
  danglingFreeAux [] msgs

example : normalize_korrel8r_query "alert:\x7b\"alertname\":\"X\"\x7d"
    = "alert:alert:\x7b\"alertname\":\"X\"\x7d" := by decide

example : normalize_korrel8r_query "k8s:Alert:\x7b\"alertname\":\"Y\"\x7d"
    = "alert:alert:\x7b\"alertname\":\"Y\"\x7d" := by decide

example : normalize_korrel8r_query "k8s:Pod:\x7bnamespace=\"ns\"\x7d"
    = "k8s:Pod:\x7b\"namespace\":=\"ns\"\x7d" := by decide

/-- A successful `key="` match contains an equals sign. -/
theorem matchKV_mem_eq {l : List Char} {kr : List Char × List Char}
    (h : matchKV l = some kr) : '=' ∈ l := by
  simp only [matchKV] at h
  by_cases hk : l.takeWhile isKeyChar = []
  · simp [hk] at h
  · rw [if_neg hk] at h
    rcases hd : (l.drop (l.takeWhile isKeyChar).length).dropWhile pyIsSpace with _ | ⟨c, r2⟩
    · rw [hd] at h; simp at h
    · rw [hd] at h
      dsimp only at h
      by_cases hc : c = '='
      · subst hc
        have h1 : '=' ∈ (l.drop (l.takeWhile isKeyChar).length).dropWhile pyIsSpace := by
          rw [hd]; exact List.mem_cons_self _ _
        exact (List.drop_suffix _ l).mem ((List.dropWhile_suffix pyIsSpace).mem h1)
      · rw [if_neg hc] at h; simp at h

/-- The selector-key rewrite leaves text without an equals sign
unchanged, for any fuel. -/
theorem subKVFuel_eq_self (a : Bool) :
    ∀ (fuel : Nat) (prev : Option Char) (l : List Char),
      '=' ∉ l → subKVFuel a fuel prev l = l
  | 0, _, _, _ => rfl
  | _ + 1, _, [], _ => rfl
  | fuel + 1, prev, c :: rest, h => by
    have hrest : '=' ∉ rest := fun hm => h (List.mem_cons_of_mem _ hm)
    unfold subKVFuel
    dsimp only
    by_cases hb : wordBoundary prev c
    · rw [if_pos hb]
      cases hm : matchKV (c :: rest) with
      | some kr => exact absurd (matchKV_mem_eq hm) h
      | none => rw [subKVFuel_eq_self a fuel (some c) rest hrest]
    · rw [if_neg hb, subKVFuel_eq_self a fuel (some c) rest hrest]

/-- The selector-key rewrite leaves text without an equals sign
unchanged. -/
theorem subKV_eq_self {a : Bool} {prev : Option Char} {l : List Char}
    (h : '=' ∉ l) : subKV a prev l = l :=
  subKVFuel_eq_self a l.length prev l h

/-- `lastIdxOf` returns the index of an occurrence. -/
theorem lastIdxOf_getElem {c : Char} :
    ∀ {l : List Char} {k : Nat}, lastIdxOf c l = some k →
      ∃ hk : k < l.length, l[k] = c
  | [], _, h => by simp [lastIdxOf] at h
  | x :: rest, k, h => by
    unfold lastIdxOf at h
    cases hr : lastIdxOf c rest with
    | some k' =>
      rw [hr] at h
      obtain ⟨hk', he⟩ := lastIdxOf_getElem hr
      injection h with h'
      subst h'
      exact ⟨by simpa using Nat.succ_lt_succ hk', by simpa using he⟩
    | none =>
      rw [hr] at h
      by_cases hx : x = c
      · rw [if_pos hx] at h
        injection h with h'
        subst h'
        exact ⟨Nat.succ_pos _, hx⟩
      · rw [if_neg hx] at h; exact absurd h (by simp)

/-- A successful brace search decomposes its input: the whole string is
the prefix, the opening brace, the matched body, the closing brace and
the suffix, in that order. -/
theorem findBraceMatch_eq :
    ∀ {l p i s : List Char}, findBraceMatch l = some (p, i, s) →
      l = p ++ '\x7b' :: (i ++ '\x7d' :: s)
  | [], _, _, _, h => by simp [findBraceMatch] at h
  | c :: rest, p, i, s, h => by
    unfold findBraceMatch at h
    by_cases hc : c = '\x7b'
    · rw [if_pos hc] at h
      simp only [] at h
      cases hseg : lastIdxOf '\x7d' (rest.takeWhile (fun x => x ≠ '\n')) with
      | some k =>
        rw [hseg] at h
        obtain ⟨hk, he⟩ := lastIdxOf_getElem hseg
        simp only [Option.some.injEq, Prod.mk.injEq] at h
        obtain ⟨rfl, rfl, rfl⟩ := h
        subst hc
        have hkr : k < rest.length :=
          Nat.lt_of_lt_of_le hk (List.takeWhile_prefix _).length_le
        have hre : rest[k] = '\x7d' := by
          rw [← (List.takeWhile_prefix (fun x => x ≠ '\n')).getElem hk]
          exact he
        have hsplit : rest = rest.take k ++ '\x7d' :: rest.drop (k + 1) := by
          conv_lhs => rw [← List.take_append_drop k rest]
          rw [List.drop_eq_getElem_cons hkr, hre]
        simpa using hsplit
      | none =>
        rw [hseg] at h
        cases hrec : findBraceMatch rest with
        | some pis =>
          obtain ⟨p', i', s'⟩ := pis
          rw [hrec] at h
          simp only [Option.some.injEq, Prod.mk.injEq] at h
          obtain ⟨rfl, rfl, rfl⟩ := h
          have := findBraceMatch_eq hrec
          simp [this]
        | none => rw [hrec] at h; exact absurd h (by simp)
    · rw [if_neg hc] at h
      cases hrec : findBraceMatch rest with
      | some pis =>
        obtain ⟨p', i', s'⟩ := pis
        rw [hrec] at h
        simp only [Option.some.injEq, Prod.mk.injEq] at h
        obtain ⟨rfl, rfl, rfl⟩ := h
        have := findBraceMatch_eq hrec
        simp [this]
      | none => rw [hrec] at h; exact absurd h (by simp)

/-- The rewrite stage touches exactly the greedy first brace match: the
prefix before the opening brace and the suffix after the closing brace
are returned verbatim. -/
theorem braceRewrite_decomp {d : Bool} {s p i suf : List Char}
    (h : findBraceMatch s = some (p, i, suf)) :
    braceRewrite d s = p ++ '\x7b' :: (subKV d none i ++ '\x7d' :: suf) := by
  unfold braceRewrite
  rw [h]
  simp only []
  by_cases he : subKV d none i = i
  · rw [if_neg (by simp [he])]
    rw [he]
    exact findBraceMatch_eq h
  · rw [if_pos he]

/-- The head of a `dropWhile` result fails the predicate. -/
theorem head?_dropWhile_not {p : Char → Bool} :
    ∀ {l : List Char} {c : Char}, (l.dropWhile p).head? = some c → p c = false
  | [], _, h => by simp [List.dropWhile] at h
  | x :: t, c, h => by
    rw [List.dropWhile_cons] at h
    by_cases hx : p x
    · rw [if_pos hx] at h; exact head?_dropWhile_not h
    · rw [if_neg hx] at h
      simp only [List.head?_cons, Option.some.injEq] at h
      subst h
      simpa using hx

/-- A stripped string starts with a non-whitespace character. -/
theorem pyStrip_head? {l : List Char} {c : Char}
    (h : (pyStrip l).head? = some c) : pyIsSpace c = false := by
  unfold pyStrip at h
  rw [List.head?_reverse] at h
  have hY : ((l.dropWhile pyIsSpace).reverse.dropWhile pyIsSpace) ≠ [] := by
    intro he; rw [he] at h; simp at h
  obtain ⟨w, hw⟩ := List.dropWhile_suffix (l := (l.dropWhile pyIsSpace).reverse) pyIsSpace
  have hg : (l.dropWhile pyIsSpace).reverse.getLast?
      = ((l.dropWhile pyIsSpace).reverse.dropWhile pyIsSpace).getLast? := by
    conv_lhs => rw [← hw]
    exact List.getLast?_append_of_ne_nil w hY
  rw [← hg, List.getLast?_reverse] at h
  exact head?_dropWhile_not h

/-- A stripped string ends with a non-whitespace character. -/
theorem pyStrip_getLast? {l : List Char} {c : Char}
    (h : (pyStrip l).getLast? = some c) : pyIsSpace c = false := by
  unfold pyStrip at h
  rw [List.getLast?_reverse] at h
  exact head?_dropWhile_not h

/-- `dropWhile` is the identity when the head already fails the
predicate. -/
theorem dropWhile_eq_self_of_head {p : Char → Bool} {l : List Char}
    (h : ∀ c, l.head? = some c → p c = false) : l.dropWhile p = l := by
  cases l with
  | nil => rfl
  | cons x t => rw [List.dropWhile_cons, if_neg (by simp [h x rfl])]

/-- Stripping is the identity on strings with non-whitespace ends. -/
theorem pyStrip_eq_self {l : List Char}
    (h1 : ∀ c, l.head? = some c → pyIsSpace c = false)
    (h2 : ∀ c, l.getLast? = some c → pyIsSpace c = false) : pyStrip l = l := by
  unfold pyStrip
  rw [dropWhile_eq_self_of_head h1]
  rw [dropWhile_eq_self_of_head (fun c hc => h2 c (by rwa [List.head?_reverse] at hc))]
  exact List.reverse_reverse l

/-- Stripping is idempotent. -/
theorem pyStrip_idem (l : List Char) : pyStrip (pyStrip l) = pyStrip l :=
  pyStrip_eq_self (fun _ h => pyStrip_head? h) (fun _ h => pyStrip_getLast? h)

/-- Stripping only removes characters. -/
theorem mem_pyStrip {x : Char} {l : List Char} (h : x ∈ pyStrip l) : x ∈ l := by
  unfold pyStrip at h
  rw [List.mem_reverse] at h
  have h2 := (List.dropWhile_suffix pyIsSpace).mem h
  rw [List.mem_reverse] at h2
  exact (List.dropWhile_suffix pyIsSpace).mem h2

/-- A substring whose first character is absent cannot occur. -/
theorem containsSub_eq_false {c : Char} {cs l : List Char} (h : c ∉ l) :
    containsSub (c :: cs) l = false := by
  induction l with
  | nil => rfl
  | cons d t ih =>
    have hd : c ≠ d := fun he => h (he ▸ List.mem_cons_self d t)
    have ht : c ∉ t := fun hm => h (List.mem_cons_of_mem _ hm)
    unfold containsSub
    rw [ih ht]
    simp [List.isPrefixOf, hd]

/-- `splitColon2Tail` returns a suffix of its input. -/
theorem splitColon2Tail_suffix (l : List Char) : splitColon2Tail l <:+ l := by
  unfold splitColon2Tail
  cases h1 : l.dropWhile (fun c => c ≠ ':') with
  | nil => exact List.nil_suffix
  | cons a rest =>
    dsimp only
    have hs1 : a :: rest <:+ l := h1 ▸ List.dropWhile_suffix _
    cases h2 : rest.dropWhile (fun c => c ≠ ':') with
    | nil => exact List.nil_suffix
    | cons b rest2 =>
      dsimp only
      have hs2 : b :: rest2 <:+ rest := h2 ▸ List.dropWhile_suffix _
      exact ((List.suffix_cons b rest2).trans hs2).trans
        ((List.suffix_cons a rest).trans hs1)

/-- The pattern `alert:\x7b` is not a prefix of a string whose seventh
character is `a` (such as anything starting `alert:alert:`). -/
theorem alertBrace_not_prefix {t : List Char} (h : t[6]? = some 'a') :
    (chars "alert:\x7b").isPrefixOf t = false := by
  rw [Bool.eq_false_iff]
  intro hpre
  rw [List.isPrefixOf_iff_prefix] at hpre
  obtain ⟨u, hu⟩ := hpre
  rw [← hu, List.getElem?_append_left (by decide)] at h
  rw [show (chars "alert:\x7b")[6]? = some '\x7b' from by decide] at h
  exact absurd (Option.some.inj h) (by decide)

/-- The pattern `k8s:alert:` is not a prefix of a string starting with
`a`. -/
theorem k8s_not_prefix {t : List Char} (h : t.head? = some 'a') :
    (chars "k8s:alert:").isPrefixOf t = false := by
  rw [Bool.eq_false_iff]
  intro hpre
  rw [List.isPrefixOf_iff_prefix] at hpre
  obtain ⟨u, hu⟩ := hpre
  rw [← hu, List.head?_append_of_ne_nil _ (by decide)] at h
  rw [show (chars "k8s:alert:").head? = some 'k' from by decide] at h
  exact absurd (Option.some.inj h) (by decide)

/-- The rewrite stage leaves a string without an equals sign
unchanged. -/
theorem braceRewrite_eq_self {d : Bool} {s : List Char} (h : '=' ∉ s) :
    braceRewrite d s = s := by
  cases hfb : findBraceMatch s with
  | none => unfold braceRewrite; rw [hfb]
  | some pis =>
    obtain ⟨p, i, suf⟩ := pis
    have hdec := findBraceMatch_eq hfb
    have hi : '=' ∉ i := by
      intro hm
      exact h (by rw [hdec]; simp [hm])
    unfold braceRewrite
    rw [hfb]
    simp only []
    rw [if_neg (by simp [subKV_eq_self hi])]

/-- On inputs free of backslashes and equals signs the normalizer is
strip followed by the two prefix repairs, nothing else. -/
theorem normalizeChars_char {L : List Char}
    (h1 : '\\' ∉ pyStrip L) (h2 : '=' ∉ pyStrip L) :
    normalizeChars L =
      if (chars "alert:\x7b").isPrefixOf (pyStrip L) = true then
        chars "alert:alert:\x7b" ++ (pyStrip L).drop 7
      else if (chars "k8s:alert:").isPrefixOf (pyLower (pyStrip L)) = true then
        chars "alert:alert:" ++ splitColon2Tail (pyStrip L)
      else pyStrip L := by
  have hesc : containsSub ['\\', '"'] (pyStrip L) = false := containsSub_eq_false h1
  unfold normalizeChars
  simp only [hesc, Bool.false_eq_true, if_false]
  by_cases hA : (chars "alert:\x7b").isPrefixOf (pyStrip L) = true
  · rw [if_pos hA, if_pos hA]
    have hk : (chars "k8s:alert:").isPrefixOf
        (pyLower (chars "alert:alert:\x7b" ++ (pyStrip L).drop 7)) = false := by
      apply k8s_not_prefix
      rw [pyLower, List.head?_map,
        List.head?_append_of_ne_nil _ (by decide : chars "alert:alert:\x7b" ≠ [])]
      decide
    rw [if_neg (by simp [hk])]
    apply braceRewrite_eq_self
    intro hm
    rcases List.mem_append.mp hm with hm1 | hm2
    · exact absurd hm1 (by decide)
    · exact h2 (List.mem_of_mem_drop hm2)
  · rw [if_neg hA, if_neg hA]
    by_cases hK : (chars "k8s:alert:").isPrefixOf (pyLower (pyStrip L)) = true
    · rw [if_pos hK, if_pos hK]
      apply braceRewrite_eq_self
      intro hm
      rcases List.mem_append.mp hm with hm1 | hm2
      · exact absurd hm1 (by decide)
      · exact h2 ((splitColon2Tail_suffix _).mem hm2)
    · rw [if_neg hK, if_neg hK]
      exact braceRewrite_eq_self h2

/-- On inputs free of backslashes and equals signs, a second normalizer
pass changes nothing (character-list level). -/
theorem normalizeChars_idem {L : List Char}
    (h1 : '\\' ∉ L) (h2 : '=' ∉ L) :
    normalizeChars (normalizeChars L) = normalizeChars L := by
  have hs1 : '\\' ∉ pyStrip L := fun h => h1 (mem_pyStrip h)
  have hs2 : '=' ∉ pyStrip L := fun h => h2 (mem_pyStrip h)
  have hchar := normalizeChars_char hs1 hs2
  by_cases hA : (chars "alert:\x7b").isPrefixOf (pyStrip L) = true
  · rw [if_pos hA] at hchar
    set D := (pyStrip L).drop 7 with hD
    set t := chars "alert:alert:\x7b" ++ D with ht
    have htbs : '\\' ∉ t := by
      intro hm
      rcases List.mem_append.mp hm with hm1 | hm2
      · exact absurd hm1 (by decide)
      · exact hs1 (List.mem_of_mem_drop hm2)
    have hteq : '=' ∉ t := by
      intro hm
      rcases List.mem_append.mp hm with hm1 | hm2
      · exact absurd hm1 (by decide)
      · exact hs2 (List.mem_of_mem_drop hm2)
    have hhead : ∀ c, t.head? = some c → pyIsSpace c = false := by
      intro c hc
      rw [ht, List.head?_append_of_ne_nil _ (by decide)] at hc
      rw [show (chars "alert:alert:\x7b").head? = some 'a' from by decide] at hc
      obtain rfl : 'a' = c := Option.some.inj hc
      decide
    have hlast : ∀ c, t.getLast? = some c → pyIsSpace c = false := by
      intro c hc
      by_cases hDn : D = []
      · rw [ht, hDn, List.append_nil] at hc
        rw [show (chars "alert:alert:\x7b").getLast? = some '\x7b' from by decide] at hc
        obtain rfl : '\x7b' = c := Option.some.inj hc
        decide
      · rw [ht, List.getLast?_append_of_ne_nil _ hDn] at hc
        obtain ⟨w, hw⟩ : D <:+ pyStrip L := hD ▸ List.drop_suffix 7 (pyStrip L)
        have hlt : (pyStrip L).getLast? = some c := by
          rw [← hw, List.getLast?_append_of_ne_nil w hDn]
          exact hc
        exact pyStrip_getLast? hlt
    have hstrip : pyStrip t = t := pyStrip_eq_self hhead hlast
    have h1t : '\\' ∉ pyStrip t := by rw [hstrip]; exact htbs
    have h2t : '=' ∉ pyStrip t := by rw [hstrip]; exact hteq
    have hchar2 := normalizeChars_char h1t h2t
    rw [hstrip] at hchar2
    have hA2 : (chars "alert:\x7b").isPrefixOf t = false := by
      apply alertBrace_not_prefix
      rw [ht, List.getElem?_append_left (by decide)]
      decide
    have hK2 : (chars "k8s:alert:").isPrefixOf (pyLower t) = false := by
      apply k8s_not_prefix
      rw [ht, pyLower, List.head?_map,
        List.head?_append_of_ne_nil _ (by decide : chars "alert:alert:\x7b" ≠ [])]
      decide
    rw [hchar, hchar2, if_neg (by simp [hA2]), if_neg (by simp [hK2])]
  · rw [if_neg hA] at hchar
    by_cases hK : (chars "k8s:alert:").isPrefixOf (pyLower (pyStrip L)) = true
    · rw [if_pos hK] at hchar
      set Y := splitColon2Tail (pyStrip L) with hY
      set t := chars "alert:alert:" ++ Y with ht
      have htbs : '\\' ∉ t := by
        intro hm
        rcases List.mem_append.mp hm with hm1 | hm2
        · exact absurd hm1 (by decide)
        · exact hs1 ((splitColon2Tail_suffix _).mem hm2)
      have hteq : '=' ∉ t := by
        intro hm
        rcases List.mem_append.mp hm with hm1 | hm2
        · exact absurd hm1 (by decide)
        · exact hs2 ((splitColon2Tail_suffix _).mem hm2)
      have hhead : ∀ c, t.head? = some c → pyIsSpace c = false := by
        intro c hc
        rw [ht, List.head?_append_of_ne_nil _ (by decide)] at hc
        rw [show (chars "alert:alert:").head? = some 'a' from by decide] at hc
        obtain rfl : 'a' = c := Option.some.inj hc
        decide
      have hlast : ∀ c, t.getLast? = some c → pyIsSpace c = false := by
        intro c hc
        by_cases hYn : Y = []
        · rw [ht, hYn, List.append_nil] at hc
          rw [show (chars "alert:alert:").getLast? = some ':' from by decide] at hc
          obtain rfl : ':' = c := Option.some.inj hc
          decide
        · rw [ht, List.getLast?_append_of_ne_nil _ hYn] at hc
          obtain ⟨w, hw⟩ : Y <:+ pyStrip L := hY ▸ splitColon2Tail_suffix (pyStrip L)
          have hlt : (pyStrip L).getLast? = some c := by
            rw [← hw, List.getLast?_append_of_ne_nil w hYn]
            exact hc
          exact pyStrip_getLast? hlt
      have hstrip : pyStrip t = t := pyStrip_eq_self hhead hlast
      have h1t : '\\' ∉ pyStrip t := by rw [hstrip]; exact htbs
      have h2t : '=' ∉ pyStrip t := by rw [hstrip]; exact hteq
      have hchar2 := normalizeChars_char h1t h2t
      rw [hstrip] at hchar2
      have hA2 : (chars "alert:\x7b").isPrefixOf t = false := by
        apply alertBrace_not_prefix
        rw [ht, List.getElem?_append_left (by decide)]
        decide
      have hK2 : (chars "k8s:alert:").isPrefixOf (pyLower t) = false := by
        apply k8s_not_prefix
        rw [ht, pyLower, List.head?_map,
          List.head?_append_of_ne_nil _ (by decide : chars "alert:alert:" ≠ [])]
        decide
      rw [hchar, hchar2, if_neg (by simp [hA2]), if_neg (by simp [hK2])]
    · rw [if_neg hK] at hchar
      have hidem := pyStrip_idem L
      have h1t : '\\' ∉ pyStrip (pyStrip L) := by rw [hidem]; exact hs1
      have h2t : '=' ∉ pyStrip (pyStrip L) := by rw [hidem]; exact hs2
      have hchar2 := normalizeChars_char (L := pyStrip L) h1t h2t
      rw [hidem] at hchar2
      rw [hchar, hchar2, if_neg hA, if_neg hK]

/-- Claim C5 (counterexample): the source's brace regex `\x7b(.*)\x7d` is
greedy, so on `x:\x7ba="1"\x7d \x7bb="2"\x7d` the normalizer also
rewrites the second selector body, while the claim (non-greedy, first
occurrence — embodied by `normalizeSpecNonGreedy`, written from the
spec's words) leaves everything after the first `\x7d` untouched. -/
theorem C5_counterexample :
    normalize_korrel8r_query "x:\x7ba=\"1\"\x7d \x7bb=\"2\"\x7d"
        = "x:\x7b\"a\":=\"1\"\x7d \x7b\"b\":=\"2\"\x7d"
      ∧ normalizeSpecNonGreedy "x:\x7ba=\"1\"\x7d \x7bb=\"2\"\x7d"
        = "x:\x7b\"a\":=\"1\"\x7d \x7bb=\"2\"\x7d"
      ∧ normalize_korrel8r_query "x:\x7ba=\"1\"\x7d \x7bb=\"2\"\x7d"
        ≠ normalizeSpecNonGreedy "x:\x7ba=\"1\"\x7d \x7bb=\"2\"\x7d" :=
  ⟨by decide, by decide, by decide⟩

/-- Claim C5 (amended): the normalizer's selector rewrite acts on the
*greedy* first brace match — from the first `\x7b` that has a matching
`\x7d` later on its line up to the *last* such `\x7d` — and the text
before that `\x7b` and after that `\x7d` is returned unchanged; the
rewritten segment is exactly the `key="` substitution of the matched
body. -/
theorem C5_rewrite_scope {d : Bool} {s p i suf : List Char}
    (h : findBraceMatch s = some (p, i, suf)) :
    s = p ++ '\x7b' :: (i ++ '\x7d' :: suf)
      ∧ braceRewrite d s = p ++ '\x7b' :: (subKV d none i ++ '\x7d' :: suf) :=
  ⟨findBraceMatch_eq h, braceRewrite_decomp h⟩

/-- Witness for C5 at a concrete selector string. -/
theorem C5_rewrite_scope_witness :
    chars "k8s:Pod:\x7bns=\"x\"\x7d"
        = chars "k8s:Pod:" ++ '\x7b' :: (chars "ns=\"x\"" ++ '\x7d' :: [])
      ∧ braceRewrite false (chars "k8s:Pod:\x7bns=\"x\"\x7d")
        = chars "k8s:Pod:"
            ++ '\x7b' :: (subKV false none (chars "ns=\"x\"") ++ '\x7d' :: []) :=
  C5_rewrite_scope (by decide)

/-- Claim C6 (counterexample): the normalizer is not idempotent — on
`x:\x7ba=b="1"\x7d` the first pass produces `x:\x7ba="b":="1"\x7d`, whose
leading `a="` then matches the rewrite pattern again on the second
pass. -/
theorem C6_counterexample :
    normalize_korrel8r_query (normalize_korrel8r_query "x:\x7ba=b=\"1\"\x7d")
      ≠ normalize_korrel8r_query "x:\x7ba=b=\"1\"\x7d" := by decide

/-- Claim C6 (amended): the normalizer is idempotent on every input that
contains neither a backslash (whose escaped-quote collapsing is
non-idempotent, e.g. `\\"` → `\"` → `"`) nor an equals sign (whose
selector rewrite can re-trigger, as in the counterexample). -/
theorem C6_idempotent_on_clean_inputs (q : String)
    (h1 : '\\' ∉ q.toList) (h2 : '=' ∉ q.toList) :
    normalize_korrel8r_query (normalize_korrel8r_query q)
      = normalize_korrel8r_query q := by
  unfold normalize_korrel8r_query
  rw [show ((normalizeChars q.toList).asString).toList = normalizeChars q.toList from rfl]
  exact congrArg List.asString (normalizeChars_idem h1 h2)

/-- Witness for C6 at a concrete query. -/
theorem C6_idempotent_witness :
    normalize_korrel8r_query (normalize_korrel8r_query "alert:\x7b\"a\":\"b\"\x7d")
      = normalize_korrel8r_query "alert:\x7b\"a\":\"b\"\x7d" :=
  C6_idempotent_on_clean_inputs _ (by decide) (by decide)

/-- Claim C7 (counterexample): on unmatchable input the normalizer does
not return the original string unchanged — it strips surrounding
whitespace first, so `" x"` comes back as `"x"`. -/
theorem C7_counterexample :
    normalize_korrel8r_query " x" = "x" ∧ (" x" : String) ≠ "x" :=
  ⟨by decide, by decide⟩

/-- Claim C7 (amended): the normalizer is a total function (the
embedding of its `try/except` needs no error case at all); empty input
returns the empty string; and input that triggers none of the rewrites —
no escaped quote, neither prefix repair, no brace match after stripping —
is returned *stripped* but otherwise unchanged. -/
theorem C7_total_and_passthrough :
    normalize_korrel8r_query "" = ""
      ∧ ∀ q : String,
          containsSub ['\\', '"'] (pyStrip q.toList) = false →
          (chars "alert:\x7b").isPrefixOf (pyStrip q.toList) = false →
          (chars "k8s:alert:").isPrefixOf (pyLower (pyStrip q.toList)) = false →
          findBraceMatch (pyStrip q.toList) = none →
          normalize_korrel8r_query q = (pyStrip q.toList).asString := by
  refine ⟨by decide, fun q hesc hA hK hB => ?_⟩
  unfold normalize_korrel8r_query normalizeChars
  simp only [hesc, hA, hK, Bool.false_eq_true, if_false]
  unfold braceRewrite
  rw [hB]

/-- Witness for C7 at a concrete unmatchable input. -/
theorem C7_passthrough_witness :
    normalize_korrel8r_query "  plain text  "
      = (pyStrip ("  plain text  ").toList).asString :=
  C7_total_and_passthrough.2 "  plain text  " (by decide) (by decide) (by decide)
    (by decide)

/-- Claim C8: `create_chatbot` raises `ValueError` when no tool executor
is supplied; routes the four named identifiers to the Anthropic, OpenAI,
deterministic and Llama adapters respectively; and any identifier with
no external-provider marker and no Llama family/size match gets the
deterministic fallback. -/
theorem C8_factory_routing :
    (∀ m, create_chatbot false m
        = .error "tool_executor is required. Pass a ToolExecutor implementation (MCPServerAdapter from MCP server or MCPClientAdapter from UI)")
      ∧ create_chatbot true "anthropic/claude-3-5-haiku" = .ok BotKind.anthropicBot
      ∧ create_chatbot true "openai/gpt-4o-mini" = .ok BotKind.openaiBot
      ∧ create_chatbot true "meta-llama/Llama-3.2-3B-Instruct" = .ok BotKind.deterministicBot
      ∧ create_chatbot true "meta-llama/Llama-3.1-8B-Instruct" = .ok BotKind.llamaBot
      ∧ ∀ m, detectProvider m = none →
          containsSub (chars "llama.3.1") (localModelKey m) = false →
          containsSub (chars "llama.3.3") (localModelKey m) = false →
          containsSub (chars "llama.3.2") (localModelKey m) = false →
          create_chatbot true m = .ok BotKind.deterministicBot := by
  refine ⟨fun m => rfl, by rfl, by rfl, by rfl, by rfl,
    fun m hp h1 h2 h3 => ?_⟩
  unfold create_chatbot
  rw [hp]
  simp [routeLocalModel, h1, h2, h3]

/-- Witness for C8 at a concrete unrecognized local identifier. -/
theorem C8_factory_routing_witness :
    create_chatbot false "openai/gpt-4o-mini"
        = .error "tool_executor is required. Pass a ToolExecutor implementation (MCPServerAdapter from MCP server or MCPClientAdapter from UI)"
      ∧ create_chatbot true "mistral-7b" = .ok BotKind.deterministicBot :=
  ⟨C8_factory_routing.1 _,
    C8_factory_routing.2.2.2.2.2 "mistral-7b" (by decide) (by decide) (by decide)
      (by decide)⟩

/-- Claim C9: the deterministic fallback maps a parsed memory value of
250 GiB to the "moderate" tier, a parsed CPU ratio of 0.85 to the
"very high" tier, and answers a keyword-free question with the static
guidance message for every tool executor — i.e. without ever calling
`call_tool`. -/
theorem C9_deterministic_tiering :
    (memory_usage_tier 250).1 = "moderate"
      ∧ (cpu_usage_tier (85 / 100)).1 = "very high"
      ∧ ∀ (jsonValue : String → Option ℚ) (cb : Option (String → Except String Unit))
          (exec : String → Args → Except String String) (q : String),
          cbOk cb →
          hasMemKeyword (pyLower q.toList) = false →
          hasCpuKeyword (pyLower q.toList) = false →
          deterministic_chat jsonValue cb exec q = .ok (generalGuidance q) := by
  refine ⟨by norm_num [memory_usage_tier], by norm_num [cpu_usage_tier],
    fun jv cb exec q hcb hm hc => ?_⟩
  unfold deterministic_chat
  rw [hcb]
  dsimp only
  simp only [hm, hc, Bool.false_eq_true, if_false]

/-- Witness for C9 at the spec's own example question. -/
theorem C9_deterministic_tiering_witness :
    deterministic_chat (fun _ => none) none (fun _ _ => .ok "") "Any alerts firing?"
      = .ok (generalGuidance "Any alerts firing?") :=
  C9_deterministic_tiering.2.2 _ _ _ _ (fun _ => rfl) (by decide) (by decide)

/-- When the callback never raises, the OpenAI/Llama tool turn returns
exactly one `role:"tool"` message per requested call, in order. -/
theorem toolTurnMsgs_eq_map {cb : Option (String → Except String Unit)}
    {exec : String → Args → Except String String}
    {parse : String → Option Args} {maxLength : Nat} (hcb : cbOk cb) :
    ∀ tcs : List ToolCall,
      toolTurnMsgs cb exec parse maxLength tcs
        = .ok (toolMsgsPure exec parse maxLength tcs)
  | [] => rfl
  | tc :: rest => by
    unfold toolTurnMsgs
    rw [hcb]
    simp only [Bind.bind, Except.bind, toolTurnMsgs_eq_map hcb rest, toolMsgsPure,
      List.map_cons]

/-- A backend that always reports pending tool calls drives the OpenAI
loop through every remaining iteration to the incomplete-analysis
message. -/
theorem openaiLoop_always_tools
    {backend : List Msg → Except String ChatResponse}
    {cb : Option (String → Except String Unit)}
    {exec : String → Args → Except String String}
    {parse : String → Option Args}
    (hcb : cbOk cb)
    (hbk : ∀ msgs, ∃ r, backend msgs = .ok r
      ∧ r.finishReason = "tool_calls" ∧ r.toolCalls ≠ []) :
    ∀ (fuel iter : Nat) (msgs : List Msg),
      openaiLoop backend cb exec parse fuel iter msgs
        = .ok (incompleteMsg, iter + fuel)
  | 0, iter, msgs => by simp [openaiLoop]
  | fuel + 1, iter, msgs => by
    obtain ⟨r, hr, hfin, htc⟩ := hbk msgs
    unfold openaiLoop
    simp only [Bind.bind, Except.bind, hcb, hr]
    rw [if_pos ⟨hfin, htc⟩]
    simp only [toolTurnMsgs_eq_map hcb]
    rw [openaiLoop_always_tools hcb hbk fuel (iter + 1) _]
    have harith : iter + 1 + fuel = iter + (fuel + 1) := by omega
    rw [harith]

/-- A backend that always reports pending tool calls drives the Llama
loop through every remaining iteration to the incomplete-analysis
message. -/
theorem llamaLoop_always_tools
    {backend : List Msg → Except String ChatResponse}
    {cb : Option (String → Except String Unit)}
    {exec : String → Args → Except String String}
    {parse : String → Option Args}
    (hcb : cbOk cb)
    (hbk : ∀ msgs, ∃ r, backend msgs = .ok r
      ∧ r.finishReason = "tool_calls" ∧ r.toolCalls ≠ []) :
    ∀ (fuel iter : Nat) (msgs : List Msg),
      llamaLoop backend cb exec parse fuel iter msgs
        = .ok (incompleteMsg, iter + fuel)
  | 0, iter, msgs => by simp [llamaLoop]
  | fuel + 1, iter, msgs => by
    obtain ⟨r, hr, hfin, htc⟩ := hbk msgs
    unfold llamaLoop
    simp only [Bind.bind, Except.bind, hcb, hr]
    rw [if_pos ⟨hfin, htc⟩]
    simp only [toolTurnMsgs_eq_map hcb]
    rw [llamaLoop_always_tools hcb hbk fuel (iter + 1) _]
    have harith : iter + 1 + fuel = iter + (fuel + 1) := by omega
    rw [harith]

/-- When the callback never raises, the Anthropic tool turn returns
exactly the tool-result blocks of the response's `tool_use` blocks. -/
theorem anthropicToolResults_eq
    {cb : Option (String → Except String Unit)}
    {exec : String → Args → Except String String} (hcb : cbOk cb) :
    ∀ blocks : List ABlock,
      anthropicToolResults cb exec blocks
        = .ok (anthropicToolResultsPure exec blocks)
  | [] => rfl
  | ABlock.text s :: rest => by
    unfold anthropicToolResults
    rw [anthropicToolResults_eq hcb rest]
    simp [anthropicToolResultsPure]
  | ABlock.toolUse id name input :: rest => by
    unfold anthropicToolResults
    simp only [Bind.bind, Except.bind, hcb, anthropicToolResults_eq hcb rest]
    simp [anthropicToolResultsPure]

/-- A backend that always stops for tool use drives the Anthropic loop
through every remaining iteration to the incomplete-analysis message. -/
theorem anthropicLoop_always_tools
    {backend : List AMsg → Except String AResponse}
    {cb : Option (String → Except String Unit)}
    {exec : String → Args → Except String String}
    (hcb : cbOk cb)
    (hbk : ∀ msgs, ∃ r, backend msgs = .ok r ∧ r.stopReason = "tool_use") :
    ∀ (fuel iter : Nat) (msgs : List AMsg),
      anthropicLoop backend cb exec fuel iter msgs
        = .ok (incompleteMsg, iter + fuel)
  | 0, iter, msgs => by simp [anthropicLoop]
  | fuel + 1, iter, msgs => by
    obtain ⟨r, hr, hstop⟩ := hbk msgs
    unfold anthropicLoop
    simp only [Bind.bind, Except.bind, hcb, hr]
    rw [if_pos hstop]
    simp only [anthropicToolResults_eq hcb]
    rw [anthropicLoop_always_tools hcb hbk fuel (iter + 1) _]
    have harith : iter + 1 + fuel = iter + (fuel + 1) := by omega
    rw [harith]

/-- When the callback never raises, the Gemini tool turn returns exactly
the function responses of the response's function-call parts. -/
theorem googleFuncResponses_eq
    {cb : Option (String → Except String Unit)}
    {exec : String → Args → Except String String} (hcb : cbOk cb) :
    ∀ parts : List GPart,
      googleFuncResponses cb exec parts
        = .ok (googleFuncResponsesPure exec parts)
  | [] => rfl
  | GPart.text s :: rest => by
    unfold googleFuncResponses
    rw [googleFuncResponses_eq hcb rest]
    simp [googleFuncResponsesPure]
  | GPart.functionCall name args :: rest => by
    unfold googleFuncResponses
    simp only [Bind.bind, Except.bind, hcb, googleFuncResponses_eq hcb rest]
    simp [googleFuncResponsesPure]

/-- A part list containing a function call yields at least one function
response. -/
theorem googleFuncResponsesPure_ne_nil
    {exec : String → Args → Except String String} :
    ∀ {parts : List GPart}, parts.any isFunctionCall = true →
      googleFuncResponsesPure exec parts ≠ []
  | [], h => by simp at h
  | GPart.text s :: rest, h => by
    have hr : rest.any isFunctionCall = true := by
      simpa [isFunctionCall] using h
    simpa [googleFuncResponsesPure, List.filterMap_cons] using
      @googleFuncResponsesPure_ne_nil exec rest hr
  | GPart.functionCall name args :: rest, _ => by
    simp [googleFuncResponsesPure, List.filterMap_cons]

/-- A backend whose every response carries function calls drives the
Gemini loop through every remaining iteration to the incomplete-analysis
message. -/
theorem googleLoop_always_tools
    {backend : Nat → Except String GResponse}
    {cb : Option (String → Except String Unit)}
    {exec : String → Args → Except String String}
    (hcb : cbOk cb)
    (hbk : ∀ i, ∃ r, backend i = .ok r
      ∧ ∃ c cs, r.candidates = c :: cs ∧ c.parts.any isFunctionCall = true) :
    ∀ (fuel iter : Nat) (frs : List (String × String)),
      iter = 0 ∨ frs ≠ [] →
      googleLoop backend cb exec fuel iter frs = .ok (incompleteMsg, iter + fuel)
  | 0, iter, frs, _ => by simp [googleLoop]
  | fuel + 1, iter, frs, hinv => by
    obtain ⟨r, hr, c, cs, hcand, hany⟩ := hbk (iter + 1)
    have hparts : c.parts ≠ [] := by
      intro he
      rw [he] at hany
      simp at hany
    unfold googleLoop
    simp only [Bind.bind, Except.bind, hcb]
    rw [if_pos (by rcases hinv with h | h <;> [exact Or.inl (by omega); exact Or.inr h])]
    rw [hr]
    simp only [hcand]
    rw [if_neg hparts, if_pos hany]
    simp only [googleFuncResponses_eq hcb]
    rw [googleLoop_always_tools hcb hbk fuel (iter + 1) _
      (Or.inr (googleFuncResponsesPure_ne_nil hany))]
    have harith : iter + 1 + fuel = iter + (fuel + 1) := by omega
    rw [harith]

/-- Claim C2: with a backend stub that reports pending tool calls on
every iteration, each adapter's loop terminates after exactly its
`max_iterations` iterations — 30 for the OpenAI, Llama and Anthropic
variants, 10 for the Google variant — and returns the fixed
incomplete-analysis message. -/
theorem C2_iteration_exhaustion
    (backendO backendL : List Msg → Except String ChatResponse)
    (backendA : List AMsg → Except String AResponse)
    (backendG : Nat → Except String GResponse)
    (cb : Option (String → Except String Unit))
    (exec : String → Args → Except String String)
    (parse : String → Option Args) (sysO sysL q : String)
    (hcb : cbOk cb)
    (hO : ∀ msgs, ∃ r, backendO msgs = .ok r
      ∧ r.finishReason = "tool_calls" ∧ r.toolCalls ≠ [])
    (hL : ∀ msgs, ∃ r, backendL msgs = .ok r
      ∧ r.finishReason = "tool_calls" ∧ r.toolCalls ≠ [])
    (hA : ∀ msgs, ∃ r, backendA msgs = .ok r ∧ r.stopReason = "tool_use")
    (hG : ∀ i, ∃ r, backendG i = .ok r
      ∧ ∃ c cs, r.candidates = c :: cs ∧ c.parts.any isFunctionCall = true) :
    openaiLoop backendO cb exec parse 30 0 [Msg.system sysO, Msg.user q]
        = .ok (incompleteMsg, 30)
      ∧ llamaLoop backendL cb exec parse 30 0 [Msg.system sysL, Msg.user q]
        = .ok (incompleteMsg, 30)
      ∧ anthropicLoop backendA cb exec 30 0 [AMsg.userText q]
        = .ok (incompleteMsg, 30)
      ∧ googleLoop backendG cb exec 10 0 [] = .ok (incompleteMsg, 10) :=
  ⟨openaiLoop_always_tools hcb hO 30 0 _,
    llamaLoop_always_tools hcb hL 30 0 _,
    anthropicLoop_always_tools hcb hA 30 0 _,
    googleLoop_always_tools hcb hG 10 0 [] (Or.inl rfl)⟩

/-- Witness for C2 with concrete always-tool-calling stubs. -/
theorem C2_iteration_exhaustion_witness :
    openaiLoop (fun _ => .ok ⟨"tool_calls", none, [ToolCall.mk "i" "t" ""]⟩)
        none (fun _ _ => .ok "r") (fun _ => none) 30 0
        [Msg.system "s", Msg.user "q"] = .ok (incompleteMsg, 30)
      ∧ llamaLoop (fun _ => .ok ⟨"tool_calls", none, [ToolCall.mk "i" "t" ""]⟩)
        none (fun _ _ => .ok "r") (fun _ => none) 30 0
        [Msg.system "s", Msg.user "q"] = .ok (incompleteMsg, 30)
      ∧ anthropicLoop (fun _ => .ok ⟨"tool_use", [ABlock.toolUse "i" "t" []]⟩)
        none (fun _ _ => .ok "r") 30 0 [AMsg.userText "q"] = .ok (incompleteMsg, 30)
      ∧ googleLoop (fun _ => .ok ⟨[GCandidate.mk [GPart.functionCall "t" []]]⟩)
        none (fun _ _ => .ok "r") 10 0 [] = .ok (incompleteMsg, 10) :=
  C2_iteration_exhaustion _ _ _ _ _ _ _ "s" "s" "q" (fun _ => rfl)
    (fun _ => ⟨_, rfl, rfl, by decide⟩) (fun _ => ⟨_, rfl, rfl, by decide⟩)
    (fun _ => ⟨_, rfl, rfl⟩)
    (fun _ => ⟨_, rfl, GCandidate.mk [GPart.functionCall "t" []], [], rfl, by decide⟩)

/-- The OpenAI/Llama trim keeps the transcript within 10 entries and
preserves entry 0. -/
theorem trimOpenAI_inv {ms : List Msg} (rest : List Msg) (hlen : ms.length ≤ 10) (hne : ms ≠ []) :
    (trimOpenAI (ms ++ rest)).length ≤ 10
      ∧ (trimOpenAI (ms ++ rest)).head? = ms.head? := by
  unfold trimOpenAI
  by_cases hc : (ms ++ rest).length > 10
  · rw [if_pos hc]
    constructor
    · simp only [List.length_append, List.length_take, List.length_drop]
      rw [List.length_append] at hc
      rw [min_eq_left (by omega : 1 ≤ ms.length + rest.length)]
      omega
    · have hxne : (ms ++ rest).take 1 ≠ [] := by
        have : ((ms ++ rest).take 1).length = 1 := by
          rw [List.length_take, List.length_append]
          rw [List.length_append] at hc
          exact min_eq_left (by omega)
        intro he
        rw [he] at this
        simp at this
      rw [List.head?_append_of_ne_nil _ hxne, List.head?_take]
      simp only [if_neg (by omega : ¬(1 : Nat) = 0)]
      exact List.head?_append_of_ne_nil ms hne
  · rw [if_neg hc]
    exact ⟨by omega, List.head?_append_of_ne_nil ms hne⟩

/-- The Anthropic trim bounds any transcript at 8 entries. -/
theorem trimAnthropic_le (l : List AMsg) : (trimAnthropic l).length ≤ 8 := by
  unfold trimAnthropic
  by_cases hc : l.length > 8
  · rw [if_pos hc, List.length_drop]
    omega
  · rw [if_neg hc]
    omega

/-- The OpenAI/Llama transcript invariant after any number of tool
turns. -/
theorem openaiTranscript_inv (exec : String → Args → Except String String)
    (parse : String → Option Args) (maxLength : Nat)
    (resps : Nat → ChatResponse) (sysPrompt q : String) :
    ∀ n, (openaiTranscript exec parse maxLength resps sysPrompt q n).length ≤ 10
      ∧ (openaiTranscript exec parse maxLength resps sysPrompt q n).head?
        = some (Msg.system sysPrompt)
  | 0 => by constructor <;> simp [openaiTranscript]
  | n + 1 => by
    obtain ⟨hlen, hhead⟩ := openaiTranscript_inv exec parse maxLength resps sysPrompt q n
    have hne : openaiTranscript exec parse maxLength resps sysPrompt q n ≠ [] := by
      intro he
      rw [he] at hhead
      simp at hhead
    have hinv := trimOpenAI_inv
      ([Msg.assistant (resps n).content (resps n).toolCalls]
        ++ toolMsgsPure exec parse maxLength (resps n).toolCalls) hlen hne
    unfold openaiTranscript openaiToolTurn openaiToolTurnRaw
    rw [← List.append_assoc] at hinv
    exact ⟨hinv.1, hinv.2.trans hhead⟩

/-- Claim C3 (amended): after any number of completed tool turns the
OpenAI/Llama transcript has at most 10 entries and entry 0 is always the
system prompt; the Anthropic transcript is capped at 8 entries, but its
entry 0 is *not* the system prompt — the Anthropic adapter passes the
system prompt out of band and its trim does not pin entry 0 (see the
counterexample). -/
theorem C3_transcript_discipline :
    (∀ (exec : String → Args → Except String String)
        (parse : String → Option Args) (maxLength : Nat)
        (resps : Nat → ChatResponse) (sysPrompt q : String) (n : Nat),
        (openaiTranscript exec parse maxLength resps sysPrompt q n).length ≤ 10
          ∧ (openaiTranscript exec parse maxLength resps sysPrompt q n).head?
            = some (Msg.system sysPrompt))
      ∧ ∀ (exec : String → Args → Except String String)
          (resps : Nat → AResponse) (q : String) (n : Nat),
          (anthropicTranscript exec resps q n).length ≤ 8 := by
  refine ⟨fun exec parse maxLength resps sysPrompt q n =>
    openaiTranscript_inv exec parse maxLength resps sysPrompt q n,
    fun exec resps q n => ?_⟩
  cases n with
  | zero => simp [anthropicTranscript]
  | succ n => exact trimAnthropic_le _

/-- Claim C3 (counterexample): in the Anthropic adapter the transcript
never contains the system prompt, and after four tool turns (nine
entries, trimmed to the last eight) entry 0 is the first assistant
tool-use message — not a system prompt, which the claim requires for
every hosted adapter. -/
theorem C3_counterexample :
    (anthropicTranscript (fun _ _ => .ok "r")
        (fun _ => AResponse.mk "tool_use" [ABlock.toolUse "id1" "t" []]) "q" 4).head?
      = some (AMsg.assistant [ABlock.toolUse "id1" "t" []]) := by decide

/-- Scanning an appended transcript: the right part is scanned with the
ids declared by the left part added to the accumulator. -/
theorem danglingFreeAux_append (acc : List String) (xs ys : List Msg) :
    danglingFreeAux acc (xs ++ ys)
      = (danglingFreeAux acc xs && danglingFreeAux (acc ++ declaredIds xs) ys) := by
  induction xs generalizing acc with
  | nil => simp [danglingFreeAux, declaredIds]
  | cons m rest ih =>
    cases m with
    | system s =>
      simp only [List.cons_append, danglingFreeAux, declaredIds, List.append_eq, ih]
    | user s =>
      simp only [List.cons_append, danglingFreeAux, declaredIds, List.append_eq, ih]
    | assistant c tcs =>
      simp only [List.cons_append, danglingFreeAux, declaredIds, List.append_eq, ih,
        List.append_assoc]
    | tool id c =>
      simp only [List.cons_append, danglingFreeAux, declaredIds, List.append_eq, ih,
        Bool.and_assoc]

/-- Tool messages whose ids are all in the accumulator pass the scan. -/
theorem danglingFreeAux_toolMsgs (acc : List String) (g : ToolCall → String) :
    ∀ tcs : List ToolCall, (∀ tc ∈ tcs, tc.id ∈ acc) →
      danglingFreeAux acc (tcs.map fun tc => Msg.tool tc.id (g tc)) = true
  | [], _ => rfl
  | tc :: rest, h => by
    simp only [List.map_cons, danglingFreeAux]
    rw [danglingFreeAux_toolMsgs acc g rest (fun x hx => h x (List.mem_cons_of_mem _ hx))]
    simp only [Bool.and_true]
    simpa [List.contains] using h tc (List.mem_cons_self _ _)

/-- Claim C4 (amended): within one completed, *un-trimmed* tool turn the
invariant is preserved — the appended tool_result messages all reference
the tool_calls entry of the assistant message just appended, so a
transcript that was dangling-free stays dangling-free; it is the
transcript trim that can break the invariant (see the counterexample,
where the trim drops the assistant message carrying the tool calls). -/
theorem C4_untrimmed_turn_preserves_references
    (exec : String → Args → Except String String)
    (parse : String → Option Args) (maxLength : Nat)
    (resp : ChatResponse) (msgs : List Msg)
    (h : danglingFree msgs = true) :
    danglingFree (openaiToolTurnRaw exec parse maxLength resp msgs) = true := by
  unfold openaiToolTurnRaw danglingFree
  rw [List.append_assoc, danglingFreeAux_append]
  have h0 : danglingFreeAux [] msgs = true := h
  rw [h0, Bool.true_and, List.nil_append]
  show danglingFreeAux (declaredIds msgs)
    (Msg.assistant resp.content resp.toolCalls :: toolMsgsPure exec parse maxLength resp.toolCalls)
    = true
  rw [show danglingFreeAux (declaredIds msgs)
      (Msg.assistant resp.content resp.toolCalls
        :: toolMsgsPure exec parse maxLength resp.toolCalls)
    = danglingFreeAux (declaredIds msgs ++ resp.toolCalls.map ToolCall.id)
      (toolMsgsPure exec parse maxLength resp.toolCalls) from rfl]
  exact danglingFreeAux_toolMsgs _ _ resp.toolCalls
    (fun tc htc => List.mem_append_right _ (List.mem_map_of_mem _ htc))

/-- Witness for C4 at a concrete one-call turn. -/
theorem C4_untrimmed_turn_witness :
    danglingFree (openaiToolTurnRaw (fun _ _ => .ok "r") (fun _ => none) 10000
      (ChatResponse.mk "tool_calls" none [ToolCall.mk "id1" "t" ""])
      [Msg.system "s", Msg.user "q"]) = true :=
  C4_untrimmed_turn_preserves_references _ _ _ _ _ (by decide)

/-- Claim C4 (counterexample): one tool turn with ten tool calls takes a
clean two-entry transcript to thirteen entries; the trim keeps entry 0
plus the last eight — all tool_result messages — and drops the assistant
message that declared their ids, leaving every retained tool_result
dangling. -/
theorem C4_counterexample :
    danglingFree [Msg.system "s", Msg.user "q"] = true
      ∧ danglingFree (openaiToolTurn (fun _ _ => .ok "r") (fun _ => none) 10000
          (ChatResponse.mk "tool_calls" none
            [ToolCall.mk "0" "t" "", ToolCall.mk "1" "t" "", ToolCall.mk "2" "t" "",
              ToolCall.mk "3" "t" "", ToolCall.mk "4" "t" "", ToolCall.mk "5" "t" "",
              ToolCall.mk "6" "t" "", ToolCall.mk "7" "t" "", ToolCall.mk "8" "t" "",
              ToolCall.mk "9" "t" ""])
          [Msg.system "s", Msg.user "q"]) = false :=
  ⟨by decide, by decide⟩

/-- Claim C1 (amended): the four backend-driven adapters never let an
exception escape `chat()` — for every behavior of the backend SDK, the
tool executor, `json.loads` and the progress callback, `chat` returns a
string (`Except.ok`).  The deterministic adapter returns a string
whenever the progress callback does not raise; its two callback
invocations outside `try` blocks propagate callback exceptions (see the
counterexample). -/
theorem C1_chat_never_raises :
    (∀ sdk key mn lt backend cb exec parse q ns,
        ∃ s, openai_chat sdk key mn lt backend cb exec parse q ns = .ok s)
      ∧ (∀ sdk backend cb exec parse q ns,
          ∃ s, llama_chat sdk backend cb exec parse q ns = .ok s)
      ∧ (∀ sdk key mn backend cb exec q,
          ∃ s, anthropic_chat sdk key mn backend cb exec q = .ok s)
      ∧ (∀ conf key mn backend cb exec q,
          ∃ s, google_chat conf key mn backend cb exec q = .ok s)
      ∧ (∀ (jsonValue : String → Option ℚ) cb exec q, cbOk cb →
          ∃ s, deterministic_chat jsonValue cb exec q = .ok s) := by
  refine ⟨fun sdk key mn lt backend cb exec parse q ns => ?_,
    fun sdk backend cb exec parse q ns => ?_,
    fun sdk key mn backend cb exec q => ?_,
    fun conf key mn backend cb exec q => ?_,
    fun jsonValue cb exec q hcb => ?_⟩
  · unfold openai_chat
    split
    · exact ⟨_, rfl⟩
    split
    · exact ⟨_, rfl⟩
    simp only []
    split <;> exact ⟨_, rfl⟩
  · unfold llama_chat
    split
    · exact ⟨_, rfl⟩
    simp only []
    split <;> exact ⟨_, rfl⟩
  · unfold anthropic_chat
    split
    · exact ⟨_, rfl⟩
    split
    · exact ⟨_, rfl⟩
    simp only []
    split <;> exact ⟨_, rfl⟩
  · unfold google_chat
    split
    · exact ⟨_, rfl⟩
    split
    · exact ⟨_, rfl⟩
    simp only []
    split <;> exact ⟨_, rfl⟩
  · unfold deterministic_chat detFormatStage
    simp only [hcb]
    split
    · exact ⟨_, rfl⟩
    split <;> exact ⟨_, rfl⟩

/-- Witness for C1 at concrete oracles (the deterministic adapter with a
well-behaved callback). -/
theorem C1_chat_never_raises_witness :
    ∃ s, deterministic_chat (fun _ => none) none (fun _ _ => .ok "") "cpu usage?"
      = .ok s :=
  C1_chat_never_raises.2.2.2.2 _ _ _ _ (fun _ => rfl)

/-- Claim C1 (counterexample): the deterministic adapter's very first
progress-callback invocation (deterministic_bot.py lines 35–36) sits
outside every `try` block, so a raising callback propagates out of
`chat()` instead of being converted to a string. -/
theorem C1_counterexample :
    deterministic_chat (fun _ => none)
        (some (fun _ => .error "callback boom")) (fun _ _ => .ok "") "hello"
      = .error "callback boom" := rfl

/-- Claim C10: when a tool call's argument text is not valid JSON, the
OpenAI/Llama loop neither raises nor skips the call — the turn still
yields one message per call, and the bad call is executed with the empty
argument mapping and recorded under the originating call's id. -/
theorem C10_invalid_json_args
    (cb : Option (String → Except String Unit))
    (exec : String → Args → Except String String)
    (parse : String → Option Args) (maxLength : Nat)
    (tcs : List ToolCall) (tc : ToolCall)
    (hcb : cbOk cb) (htc : tc ∈ tcs) (hbad : parse tc.arguments = none) :
    ∃ msgs, toolTurnMsgs cb exec parse maxLength tcs = .ok msgs
      ∧ msgs.length = tcs.length
      ∧ Msg.tool tc.id (get_tool_result exec maxLength tc.name []) ∈ msgs := by
  refine ⟨toolMsgsPure exec parse maxLength tcs, toolTurnMsgs_eq_map hcb tcs,
    by simp [toolMsgsPure], ?_⟩
  have hmem : Msg.tool tc.id
      (get_tool_result exec maxLength tc.name ((parse tc.arguments).getD []))
      ∈ toolMsgsPure exec parse maxLength tcs := List.mem_map_of_mem _ htc
  rw [hbad] at hmem
  exact hmem

/-- Witness for C10 at a concrete malformed-argument call. -/
theorem C10_invalid_json_args_witness :
    ∃ msgs,
      toolTurnMsgs none (fun _ _ => .ok "r") (fun _ => none) 10000
          [ToolCall.mk "id1" "t" "not json"] = .ok msgs
        ∧ msgs.length = [ToolCall.mk "id1" "t" "not json"].length
        ∧ Msg.tool "id1"
            (get_tool_result (fun _ _ => .ok "r") 10000 "t" []) ∈ msgs :=
  C10_invalid_json_args none (fun _ _ => .ok "r") (fun _ => none) 10000
    [ToolCall.mk "id1" "t" "not json"] (ToolCall.mk "id1" "t" "not json")
    (fun _ => rfl) (by decide) rfl
